import Mathlib

/-!
# Verification of the imputation pipeline of `normalize_and_clean_data.py`

This file is a shallow embedding of the missing-value imputation pipeline of
the repository (the step sequence run by `process_file` in
`normalize_and_clean_data.py`), together with theorems settling the spec's
claims about it.

Modelling conventions:
* A dataset is a list of rows; each row is a record of the columns the
  pipeline touches.  Dynamically-typed cells (the pandas object columns
  `condition`, `buildingMaterial`, `type`, `hasElevator`, `ownership`) are
  modelled by `Val` (null, string, or number); statically numeric columns
  (`price`, `buildYear`, `floorCount`, `floor`, the seven distance columns)
  are `Option Rat` (NaN/NA is `none`); `id` and `city` are the mandatory
  key columns of the data model (never null), so they are `Int` / `String`.
  In particular the dataset-wide yes/no replacement of `replace_yes_no`
  reduces to the `Val` columns: a numeric cell can never hold the string
  "yes", and the key columns are assumed not to hold it.
* Floating point is idealized as exact rational arithmetic (`Rat`);
  `mean`, `median`, `min`, `max` skip nulls as pandas does, and Python's
  `round` / pandas `.round()` (round half to even) is `pyRound`.
* Steps whose pandas code can raise (`mode()[0]` on an all-null column,
  `round` of NaN in `fill_missing_floor`, `bool(pd.NA)` in
  `fill_missing_has_elevator` when `floorCount` is NA) return `Option`,
  with `none` for the raising run.
* `process_file` calls `remove_non_unique_ids(df)` but discards its return
  value (`drop_duplicates` is not in place), so the pipeline's dataset is
  not deduplicated; `process_file_steps` reflects that, and
  `remove_non_unique_ids` is modelled separately.
-/

set_option maxHeartbeats 1000000
set_option allowUnsafeReducibility true
attribute [local semireducible] Rat.add Rat.mul Rat.inv Rat.sub Rat.ofScientific

/-- Value of a dynamically typed pandas cell: missing, a string, or a number. -/
inductive Val where
  | null : Val
  | str : String → Val
  | num : Rat → Val
deriving DecidableEq, Repr

/-- One listing (a row of the dataset), with the columns used by the pipeline. -/
structure Row where
  id : Int := 0
  city : String := ""
  price : Option Rat := none
  condition : Val := Val.null
  buildingMaterial : Val := Val.null
  typ : Val := Val.null
  buildYear : Option Rat := none
  floorCount : Option Rat := none
  floor : Option Rat := none
  schoolDistance : Option Rat := none
  clinicDistance : Option Rat := none
  postOfficeDistance : Option Rat := none
  kindergartenDistance : Option Rat := none
  restaurantDistance : Option Rat := none
  collegeDistance : Option Rat := none
  pharmacyDistance : Option Rat := none
  hasElevator : Val := Val.null
  ownership : Val := Val.null
deriving DecidableEq, Repr

abbrev Dataset := List Row

/-- Sum of a list of rationals. -/
def ratSum : List Rat → Rat
  | [] => 0
  | x :: xs => x + ratSum xs

/-- Mean of a list (pandas `mean` over the non-null values); `none` on the
empty list, matching the NaN a pandas mean of no values produces. -/
def ratMean : List Rat → Option Rat
  | [] => none
  | x :: xs => some (ratSum (x :: xs) / (((x :: xs).length : Nat) : Rat))

/-- Minimum of a list, `none` if empty (pandas `min` skipping NaN). -/
def ratMin : List Rat → Option Rat
  | [] => none
  | x :: xs =>
    match ratMin xs with
    | none => some x
    | some y => some (min x y)

/-- Maximum of a list, `none` if empty (pandas `max` skipping NaN). -/
def ratMax : List Rat → Option Rat
  | [] => none
  | x :: xs =>
    match ratMax xs with
    | none => some x
    | some y => some (max x y)

/-- Insert into a sorted list (ascending). -/
def insertSorted (x : Rat) : List Rat → List Rat
  | [] => [x]
  | y :: ys => if x ≤ y then x :: y :: ys else y :: insertSorted x ys

/-- Insertion sort, ascending. -/
def sortRats (l : List Rat) : List Rat := l.foldr insertSorted []

/-- Median with pandas interpolation: middle element for odd length, average
of the two middle elements for even length, `none` on the empty list. -/
def ratMedian (l : List Rat) : Option Rat :=
  if (sortRats l).length = 0 then none
  else if (sortRats l).length % 2 = 1 then (sortRats l)[(sortRats l).length / 2]?
  else
    match (sortRats l)[(sortRats l).length / 2 - 1]?, (sortRats l)[(sortRats l).length / 2]? with
    | some a, some b => some ((a + b) / 2)
    | _, _ => none

/-- Python's `round` to the nearest integer, rounding halves to even, as
used by the builtin `round` and by pandas `.round()`. -/
def pyRound (q : Rat) : Int :=
  if q - (⌊q⌋ : Rat) < 1 / 2 then ⌊q⌋
  else if 1 / 2 < q - (⌊q⌋ : Rat) then ⌊q⌋ + 1
  else if ⌊q⌋ % 2 = 0 then ⌊q⌋ else ⌊q⌋ + 1

/-- First non-`none` element of a list of optional values. -/
def firstSome : List (Option Rat) → Option Rat
  | [] => none
  | none :: xs => firstSome xs
  | some v :: _ => some v

/-- Option-valued map over a list, failing when any element fails (the
shape of a pandas pass that can raise on some row). -/
def omap (f : α → Option β) : List α → Option (List β)
  | [] => some []
  | a :: as =>
    match f a with
    | none => none
    | some b => (omap f as).map (fun bs => b :: bs)

/-- Lexicographic comparison of character lists by code point, the order
Python uses to compare strings and pandas uses to sort them. -/
def charListLt : List Char → List Char → Bool
  | [], [] => false
  | [], _ :: _ => true
  | _ :: _, [] => false
  | a :: as, b :: bs => if a < b then true else if b < a then false else charListLt as bs

/-- Python's `<` on strings: lexicographic by code point. -/
def strLt (s t : String) : Bool := charListLt s.data t.data

/-- Number of occurrences of a string in a list. -/
def countVal (l : List String) (s : String) : Nat :=
  (l.filter (fun t => decide (t = s))).length

/-- One step of the mode computation: keep the candidate with the larger
count, breaking count ties toward the lexicographically smaller string
(pandas `Series.mode` returns its result sorted ascending, so `mode()[0]`
is the smallest among the most frequent values). -/
def modePick (l : List String) (acc : Option String) (s : String) : Option String :=
  match acc with
  | none => some s
  | some b =>
    if countVal l s > countVal l b then some s
    else if countVal l s = countVal l b ∧ strLt s b then some s
    else some b

/-- Value of `series.mode()[0]`: the most frequent value, ties broken toward
the smallest string; `none` when the list of non-null values is empty
(where the pandas code raises `KeyError`). -/
def seriesMode (l : List String) : Option String := l.foldl (modePick l) none

/-- Mode with ties broken by first appearance in the column, which is what
the claim (C6) asserts the tie-breaking to be. -/
def modeFirstAppearance (l : List String) : Option String :=
  l.foldl (fun acc s =>
    match acc with
    | none => some s
    | some b => if countVal l s > countVal l b then some s else some b) none

/-- The per-city price statistics of `get_price_stats_for_city`: for each of
the two conditions, `none` when no row of the city carries that label
(the key is absent from the stats dict), otherwise the min/max of the
non-null prices of those rows (each `none` when all their prices are null,
i.e. the pandas min/max is NaN). -/
structure PriceStats where
  premium : Option (Option Rat × Option Rat)
  low : Option (Option Rat × Option Rat)
deriving DecidableEq, Repr

/-- Band of prices observed for one condition label in one city. -/
def condPriceBand (d : Dataset) (city : String) (cond : String) :
    Option (Option Rat × Option Rat) :=
  let rows := d.filter (fun r => decide (r.city = city ∧ r.condition = Val.str cond))
  if rows.isEmpty then none
  else some (ratMin (rows.filterMap Row.price), ratMax (rows.filterMap Row.price))

/-- Embedding of `get_price_stats_for_city`. -/
def get_price_stats_for_city (d : Dataset) (city : String) : PriceStats :=
  { premium := condPriceBand d city "premium", low := condPriceBand d city "low" }

/-- Test `'min' in stats and stats['min'] <= price <= stats['max']`; every
comparison against NaN (a `none` bound or a null price) is false. -/
def bandContains (band : Option (Option Rat × Option Rat)) (p : Option Rat) : Bool :=
  match band, p with
  | some (some lo, some hi), some q => decide (lo ≤ q) && decide (q ≤ hi)
  | _, _ => false

/-- The label chosen from a stats record and a price: `premium` when the
price lies in the premium band, else `low` when in the low band, else
`medium`. -/
def condLabel (s : PriceStats) (p : Option Rat) : String :=
  if bandContains s.premium p then "premium"
  else if bandContains s.low p then "low"
  else "medium"

/-- The condition label `fill_condition` assigns to a missing-condition row,
as a function of the dataset the bands are computed from. -/
def conditionFor (d : Dataset) (r : Row) : String :=
  condLabel (get_price_stats_for_city d r.city) r.price

/-- Pure per-row form of the condition imputation, with the bands taken from
the dataset `d`. -/
def condImputeRow (d : Dataset) (r : Row) : Row :=
  if r.condition = Val.null then { r with condition := Val.str (conditionFor d r) } else r

/-- Lookup in the lazily populated per-city stats cache of `fill_condition`. -/
def lookupStats : List (String × PriceStats) → String → Option PriceStats
  | [], _ => none
  | (c, s) :: rest, city => if c = city then some s else lookupStats rest city

/-- The row loop of `fill_condition`: `done` holds the rows already visited
(with their in-place mutations), `todo` the rows still to visit, `cache`
the per-city stats cache; `get_price_stats_for_city` is invoked on the
current (partly mutated) dataset `done ++ todo` at each cache miss,
exactly as the source calls it on the mutated `df`. -/
def fillConditionGo : List Row → List Row → List (String × PriceStats) →
    Dataset × List (String × PriceStats)
  | done, [], cache => (done, cache)
  | done, r :: rest, cache =>
    if r.condition = Val.null then
      match lookupStats cache r.city with
      | some s =>
        fillConditionGo (done ++ [{ r with condition := Val.str (condLabel s r.price) }]) rest cache
      | none =>
        fillConditionGo (done ++ [{ r with condition := Val.str (condLabel (get_price_stats_for_city (done ++ r :: rest) r.city) r.price) }]) rest ((r.city, get_price_stats_for_city (done ++ r :: rest) r.city) :: cache)
    else fillConditionGo (done ++ [r]) rest cache

/-- Embedding of `fill_condition`, also returning the final stats cache. -/
def fillConditionFull (d : Dataset) : Dataset × List (String × PriceStats) :=
  fillConditionGo [] d []

/-- Embedding of `fill_condition` (step 4.2). -/
def fill_condition (d : Dataset) : Dataset := (fillConditionFull d).1

/-- String content of a cell, `none` for null or numeric cells. -/
def strOrNone : Val → Option String
  | Val.str s => some s
  | _ => none

/-- Non-null values of the `buildingMaterial` column, in row order. -/
def matVals (d : Dataset) : List String := d.filterMap (fun r => strOrNone r.buildingMaterial)

/-- Non-null values of the `type` column, in row order. -/
def typVals (d : Dataset) : List String := d.filterMap (fun r => strOrNone r.typ)

/-- Per-row fill of `buildingMaterial` nulls with the mode. -/
def bmRow (m : String) (r : Row) : Row :=
  if r.buildingMaterial = Val.null then { r with buildingMaterial := Val.str m } else r

/-- Embedding of `fill_missing_building_material` (step 4.3); `none` when the
column has no non-null value and `mode()[0]` raises. -/
def fill_missing_building_material (d : Dataset) : Option Dataset :=
  (seriesMode (matVals d)).map (fun m => d.map (bmRow m))

/-- Per-row fill of `type` nulls with the mode. -/
def typRow (m : String) (r : Row) : Row :=
  if r.typ = Val.null then { r with typ := Val.str m } else r

/-- Embedding of `fill_missing_type` (step 4.3). -/
def fill_missing_type (d : Dataset) : Option Dataset :=
  (seriesMode (typVals d)).map (fun m => d.map (typRow m))

/-- Non-null `buildYear` values of the rows of one city. -/
def cityBuildYears (d : Dataset) (city : String) : List Rat :=
  (d.filter (fun r => decide (r.city = city))).filterMap Row.buildYear

/-- Per-row fill of `buildYear` with the city median (`groupby('city')`
followed by `fillna(median)`); a city with no non-null value keeps its
nulls (the median is NaN and `fillna` does nothing). -/
def byRow (d : Dataset) (r : Row) : Row :=
  match r.buildYear with
  | some _ => r
  | none => { r with buildYear := ratMedian (cityBuildYears d r.city) }

/-- Embedding of `fill_missing_build_year` (step 4.4). -/
def fill_missing_build_year (d : Dataset) : Dataset := d.map (byRow d)

/-- Non-null `floorCount` values of the whole dataset. -/
def allFloorCounts (d : Dataset) : List Rat := d.filterMap Row.floorCount

/-- Per-row effect of `fillna(mean).round().astype('Int64')` on `floorCount`:
every non-null value is rounded; nulls receive the rounded dataset mean
when it exists and stay null otherwise. -/
def fcRow (d : Dataset) (r : Row) : Row :=
  match r.floorCount with
  | some q => { r with floorCount := some ((pyRound q : Int) : Rat) }
  | none =>
    match ratMean (allFloorCounts d) with
    | some m => { r with floorCount := some ((pyRound m : Int) : Rat) }
    | none => r

/-- Embedding of `fill_missing_floor_count` (step 4.5). -/
def fill_missing_floor_count (d : Dataset) : Dataset := d.map (fcRow d)

/-- Non-null `floor` values of the rows whose `floorCount` equals `q`. -/
def groupFloors (d : Dataset) (q : Rat) : List Rat :=
  (d.filter (fun r => decide (r.floorCount = some q))).filterMap Row.floor

/-- Non-null `floor` values of the whole dataset. -/
def allFloors (d : Dataset) : List Rat := d.filterMap Row.floor

/-- Per-row effect of `fill_floor`: a non-null floor passes through; a null
floor on a row with non-null `floorCount` takes the rounded group mean
(`floor_means.get` finds the key, since the row itself is in the group;
when the group's floors are all null the mean is NaN and `round` raises:
`none`); a null floor on a null `floorCount` takes the rounded dataset
mean, `round` raising likewise when there is none. -/
def floorRow (d : Dataset) (r : Row) : Option Row :=
  match r.floor with
  | some _ => some r
  | none =>
    match r.floorCount with
    | some q => (ratMean (groupFloors d q)).map
        (fun m => { r with floor := some ((pyRound m : Int) : Rat) })
    | none => (ratMean (allFloors d)).map
        (fun m => { r with floor := some ((pyRound m : Int) : Rat) })

/-- Embedding of `fill_missing_floor` (step 4.6). -/
def fill_missing_floor (d : Dataset) : Option Dataset := omap (floorRow d) d

/-- One of the seven distance-to-amenity columns. -/
inductive DCol where
  | school | clinic | postOffice | kindergarten | restaurant | college | pharmacy
deriving DecidableEq, Repr

/-- Read a distance column of a row. -/
def DCol.get : DCol → Row → Option Rat
  | .school, r => r.schoolDistance
  | .clinic, r => r.clinicDistance
  | .postOffice, r => r.postOfficeDistance
  | .kindergarten, r => r.kindergartenDistance
  | .restaurant, r => r.restaurantDistance
  | .college, r => r.collegeDistance
  | .pharmacy, r => r.pharmacyDistance

/-- Write a distance column of a row. -/
def DCol.set : DCol → Option Rat → Row → Row
  | .school, v, r => { r with schoolDistance := v }
  | .clinic, v, r => { r with clinicDistance := v }
  | .postOffice, v, r => { r with postOfficeDistance := v }
  | .kindergarten, v, r => { r with kindergartenDistance := v }
  | .restaurant, v, r => { r with restaurantDistance := v }
  | .college, v, r => { r with collegeDistance := v }
  | .pharmacy, v, r => { r with pharmacyDistance := v }

/-- The fixed processing order of `distance_columns` in the source. -/
def dcolOrder : List DCol :=
  [DCol.school, DCol.clinic, DCol.postOffice, DCol.kindergarten,
   DCol.restaurant, DCol.college, DCol.pharmacy]

/-- Non-null values of distance column `c` among the rows of one city. -/
def cityColVals (d : Dataset) (c : DCol) (city : String) : List Rat :=
  (d.filter (fun r => decide (r.city = city))).filterMap c.get

/-- Per-row effect of `groupby('city')[col].transform(fillna(mean))`:
remaining nulls take the city mean of the column when it exists. -/
def meanRowF (d : Dataset) (c : DCol) (r : Row) : Row :=
  match c.get r with
  | some _ => r
  | none =>
    match ratMean (cityColVals d c r.city) with
    | some m => c.set (some m) r
    | none => r

/-- The `correlated_columns` comprehension: the other distance columns, kept
when the target column still has a null and the candidate column has at
least one non-null value (both `.any()` tests are evaluated on the dataset
as it stands when the comprehension runs). -/
def eligFor (c : DCol) (d : Dataset) : List DCol :=
  dcolOrder.filter (fun c' =>
    decide (c' ≠ c) && d.any (fun r => (c.get r).isNone)
      && d.any (fun r => (c'.get r).isSome))

/-- The inner loop `df[column] = df[column].fillna(df[correlated_column])`,
run over the correlated columns in order. -/
def crossFill (c : DCol) (cs : List DCol) (d : Dataset) : Dataset :=
  cs.foldl (fun acc c' =>
    acc.map (fun r => if (c.get r).isNone then c.set (c'.get r) r else r)) d

/-- Processing of one target distance column: cross-column fill, then
per-city mean fill. -/
def distStep (d : Dataset) (c : DCol) : Dataset :=
  let d2 := crossFill c (eligFor c d) d
  d2.map (meanRowF d2 c)

/-- Embedding of `fill_missing_distances` (step 4.7). -/
def fill_missing_distances (d : Dataset) : Dataset := dcolOrder.foldl distStep d

/-- Row-wise reformulation of the cross-column fill: a null target cell takes
the first non-null value, at that row, among the eligible columns. -/
def crossFillRowAmended (c : DCol) (cs : List DCol) (r : Row) : Row :=
  if (c.get r).isNone then c.set (firstSome (cs.map (fun c' => c'.get r))) r else r

/-- One target column of the amended (C5) description of step 4.7: nulls are
filled row-wise with the first eligible column non-null on that row —
eligible meaning distinct from the target and holding at least one
non-null value in the dataset, while the target still has a null — and
remaining nulls then take the per-city mean of the target column. -/
def distStepAmended (d : Dataset) (c : DCol) : Dataset :=
  let d2 := d.map (crossFillRowAmended c (eligFor c d))
  d2.map (meanRowF d2 c)

/-- The amended (C5) description of `fill_missing_distances`. -/
def fill_missing_distances_amended (d : Dataset) : Dataset :=
  dcolOrder.foldl distStepAmended d

/-- Eligibility as claim C5 words it: the other distance columns that still
have nulls remaining elsewhere in the dataset. -/
def eligForClaim (c : DCol) (d : Dataset) : List DCol :=
  dcolOrder.filter (fun c' => decide (c' ≠ c) && d.any (fun r => (c'.get r).isNone))

/-- One target column of step 4.7 as claim C5 states it. -/
def distStepClaim (d : Dataset) (c : DCol) : Dataset :=
  let d2 := d.map (crossFillRowAmended c (eligForClaim c d))
  d2.map (meanRowF d2 c)

/-- Step 4.7 as claim C5 states it (cross-fill only from columns that still
have nulls remaining in the dataset). -/
def fill_missing_distances_claim (d : Dataset) : Dataset :=
  dcolOrder.foldl distStepClaim d

/-- Per-row effect of `fill_missing_has_elevator`: a null cell becomes "yes"
when `floorCount > 5` and "no" otherwise; a null cell on a row whose
`floorCount` is NA raises (`bool(pd.NA)`), hence `none`; non-null cells
pass through. -/
def heRow (r : Row) : Option Row :=
  if r.hasElevator = Val.null then
    match r.floorCount with
    | some q => some { r with hasElevator := Val.str (if 5 < q then "yes" else "no") }
    | none => none
  else some r

/-- Embedding of `fill_missing_has_elevator` (step 4.8). -/
def fill_missing_has_elevator (d : Dataset) : Option Dataset := omap heRow d

/-- The dataset-wide yes/no replacement on one cell. -/
def rynV (v : Val) : Val :=
  if v = Val.str "yes" then Val.num 1 else if v = Val.str "no" then Val.num 0 else v

/-- The dataset-wide yes/no replacement on one row (the numeric columns can
never hold the strings, and the key columns are assumed not to). -/
def rynRow (r : Row) : Row :=
  { r with condition := rynV r.condition, buildingMaterial := rynV r.buildingMaterial,
           typ := rynV r.typ, hasElevator := rynV r.hasElevator,
           ownership := rynV r.ownership }

/-- Embedding of `replace_yes_no` (step 4.9). -/
def replace_yes_no (d : Dataset) : Dataset := d.map rynRow

/-- The ownership-label replacement on one cell. -/
def ownV (v : Val) : Val :=
  if v = Val.str "udział" then Val.str "part ownership" else v

/-- The ownership-label replacement on one row. -/
def ownRow (r : Row) : Row := { r with ownership := ownV r.ownership }

/-- Embedding of `replace_ownership_value` (step 4.10). -/
def replace_ownership_value (d : Dataset) : Dataset := d.map ownRow

/-- The recursion of `drop_duplicates(subset='id', keep='first')`. -/
def remove_non_unique_ids_go : List Row → List Int → List Row
  | [], _ => []
  | r :: rest, seen =>
    if seen.contains r.id then remove_non_unique_ids_go rest seen
    else r :: remove_non_unique_ids_go rest (r.id :: seen)

/-- Embedding of `remove_non_unique_ids`: keep the first row of each id. -/
def remove_non_unique_ids (d : Dataset) : Dataset := remove_non_unique_ids_go d []

/-- The pipeline of `process_file` through step 4.7 (`fill_missing_distances`).
Note that `process_file` discards the return value of
`remove_non_unique_ids`, so the dataset entering `fill_condition` is the
loaded dataset itself, duplicates included. -/
def stagesTo_distances (d : Dataset) : Option Dataset :=
  (fill_missing_building_material (fill_condition d)).bind (fun d2 =>
  (fill_missing_type d2).bind (fun d3 =>
  (fill_missing_floor (fill_missing_floor_count (fill_missing_build_year d3))).map
    (fun d6 => fill_missing_distances d6)))

/-- The full step sequence of `process_file` on an in-memory dataset
(file I/O and the discarded `remove_non_unique_ids` call aside;
`check_missing_values` only logs and returns the dataset unchanged). -/
def process_file_steps (d : Dataset) : Option Dataset :=
  (stagesTo_distances d).bind (fun d7 =>
  (fill_missing_has_elevator d7).map (fun d8 =>
  replace_ownership_value (replace_yes_no d8)))

/-- Rows related either by equality or by both lying outside city `c`: the
relation under which the per-city price stats of `c` agree. -/
def cityAgnostic (c : String) (a b : Row) : Prop :=
  a = b ∨ (a.city ≠ c ∧ b.city ≠ c)

/-- Equality of all the columns `fill_missing_distances` does not touch. -/
def SameNonDist (r' r : Row) : Prop :=
  r'.city = r.city ∧ r'.condition = r.condition ∧ r'.buildingMaterial = r.buildingMaterial ∧
  r'.typ = r.typ ∧ r'.buildYear = r.buildYear ∧ r'.floorCount = r.floorCount ∧
  r'.floor = r.floor ∧ r'.hasElevator = r.hasElevator

/-- A row of a fully imputed, normalized dataset: the shape every row of the
output of one pipeline run has (when the categorical columns hold strings):
no nulls in the covered columns, integral `floorCount`, no remaining
"yes"/"no" tokens, and no remaining original-language ownership token. -/
def CleanRow (r : Row) : Prop :=
  r.condition ≠ Val.null ∧ r.buildingMaterial ≠ Val.null ∧ r.typ ≠ Val.null ∧
  r.hasElevator ≠ Val.null ∧ r.buildYear ≠ none ∧
  (∀ q : Rat, r.floorCount = some q → q.den = 1) ∧ r.floorCount ≠ none ∧ r.floor ≠ none ∧
  (∀ c : DCol, c.get r ≠ none) ∧
  (∀ v ∈ [r.condition, r.buildingMaterial, r.typ, r.hasElevator, r.ownership],
    v ≠ Val.str "yes" ∧ v ≠ Val.str "no") ∧
  r.ownership ≠ Val.str "udział"

/-! ## Concrete datasets used to instantiate the claims -/

/-- Scenario row of claim C3: Warsaw, missing condition, price 500000. -/
def rW30 : Row := { city := "Warsaw", price := some 500000 }

/-- Scenario dataset of claim C3 (condition [null, premium, low], price
[500000, 800000, 200000], all in Warsaw). -/
def dW3 : Dataset :=
  [rW30,
   { city := "Warsaw", price := some 800000, condition := Val.str "premium" },
   { city := "Warsaw", price := some 200000, condition := Val.str "low" }]

/-- A dataset with one missing condition to exercise the stats cache (C4). -/
def dW4 : Dataset :=
  [{ city := "Krakow", price := some 500000 },
   { city := "Krakow", price := some 800000, condition := Val.str "premium" },
   { city := "Krakow", price := some 200000, condition := Val.str "low" }]

/-- A row with a fractional non-null floorCount (C10). -/
def rW10 : Row := { floorCount := some (47/10) }

/-- Dataset for the C10 witness. -/
def dW10 : Dataset := [rW10]

/-- A fully imputed, normalized row (the shape of a pipeline output). -/
def rClean : Row :=
  { id := 1, city := "A", price := some 100, condition := Val.str "medium",
    buildingMaterial := Val.str "brick", typ := Val.str "flat", buildYear := some 2000,
    floorCount := some 6, floor := some 2, schoolDistance := some 1, clinicDistance := some 1,
    postOfficeDistance := some 1, kindergartenDistance := some 1, restaurantDistance := some 1,
    collegeDistance := some 1, pharmacyDistance := some 1, hasElevator := Val.num 1,
    ownership := Val.str "full ownership" }

/-- Dataset for the C9 witness: already fully imputed. -/
def dW9 : Dataset := [rClean]

/-- Dataset distinguishing the code's cross-fill eligibility from the claimed
one (C5): row 0 misses only schoolDistance; clinicDistance is fully
populated (so under the claim's wording it would be ineligible), and the
city mean of schoolDistance (10) differs from row 0's clinicDistance (3). -/
def dX5 : Dataset :=
  [{ city := "A", clinicDistance := some 3, postOfficeDistance := some 5,
     kindergartenDistance := some 5, restaurantDistance := some 5,
     collegeDistance := some 5, pharmacyDistance := some 5 },
   { city := "A", schoolDistance := some 10, clinicDistance := some 4,
     postOfficeDistance := some 6, kindergartenDistance := some 6,
     restaurantDistance := some 6, collegeDistance := some 6,
     pharmacyDistance := some 6 }]

/-- Dataset for the C6 counterexample: materials [wood, brick, null]; the
counts tie, pandas mode()[0] sorts and returns "brick", while
first-appearance tie-breaking would give "wood". -/
def dX6 : Dataset :=
  [{ buildingMaterial := Val.str "wood", typ := Val.str "flat" },
   { buildingMaterial := Val.str "brick", typ := Val.str "flat" },
   { typ := Val.str "flat" }]

/-- Row entering step 4.8 with missing hasElevator and floorCount 6 (C7). -/
def rW70 : Row := { rClean with id := 1, floorCount := some 6, hasElevator := Val.null }

/-- Row entering step 4.8 with missing hasElevator and floorCount 5 (C7). -/
def rW71 : Row := { rClean with id := 2, floorCount := some 5, hasElevator := Val.null }

/-- Dataset for the C7 witness: two rows entering step 4.8 with missing
hasElevator and floorCount 6 and 5 (every other covered column filled so
the pipeline completes). -/
def dW7 : Dataset := [rW70, rW71]

/-- The pipeline output on `dW7`. -/
def dW7res : Dataset :=
  [{ rW70 with hasElevator := Val.num 1 }, { rW71 with hasElevator := Val.num 0 }]

/-- Dataset for the C8 counterexample: the missing-floor row's floorCount
group (3) has no non-null floor, so the group mean is NaN and `round`
raises — the step fails instead of falling back to the dataset-wide
mean (which exists: 4). -/
def dX8 : Dataset :=
  [{ floorCount := some 3 },
   { floorCount := some 2, floor := some 4 }]

/-- Dataset for the C8 witness: the missing-floor row's group (2) has the
non-null floor 4, so the row is imputed with the rounded group mean. -/
def rW80 : Row := { floorCount := some 2 }

/-- Dataset for the C8 witness. -/
def dW8 : Dataset := [rW80, { floorCount := some 2, floor := some 4 }]

/-- The result of mode-filling `dX6`. -/
def dX6res : Dataset :=
  [{ buildingMaterial := Val.str "wood", typ := Val.str "flat" },
   { buildingMaterial := Val.str "brick", typ := Val.str "flat" },
   { buildingMaterial := Val.str "brick", typ := Val.str "flat" }]

/-- The result of the floor fill on `dW8`. -/
def dW8res : Dataset :=
  [{ floorCount := some 2, floor := some 4 },
   { floorCount := some 2, floor := some 4 }]

/-- Row with every distance column null and everything else populated (C1). -/
def rDistNull : Row :=
  { rClean with
    schoolDistance := none
    clinicDistance := none
    postOfficeDistance := none
    kindergartenDistance := none
    restaurantDistance := none
    collegeDistance := none
    pharmacyDistance := none }

/-- Dataset for the C1 counterexample. -/
def dX1 : Dataset := [rDistNull]

/-- Dataset for the C1 witness. -/
def dW1 : Dataset := [{ rClean with hasElevator := Val.str "yes" }]

/-- The pipeline output on `dW1`. -/
def dW1res : Dataset := [rClean]

/-- Dataset for C2: two fully populated rows sharing id 1. -/
def dX2 : Dataset := [rClean, { rClean with price := some 200 }]

/-! ## Generic list lemmas -/

theorem list_map_self {α : Type} {l : List α} {f : α → α} (h : ∀ a ∈ l, f a = a) :
    l.map f = l := by
  induction l with
  | nil => rfl
  | cons a as ih =>
    have ha := h a (List.mem_cons_self a as)
    have ih' := ih (fun x hx => h x (List.mem_cons_of_mem a hx))
    simp [ha, ih']

theorem foldl_fixed {α β : Type} {f : β → α → β} {d : β} :
    ∀ {l : List α}, (∀ a ∈ l, f d a = d) → l.foldl f d = d
  | [], _ => rfl
  | a :: as, h => by
    have ha := h a (List.mem_cons_self a as)
    rw [List.foldl_cons, ha]
    exact foldl_fixed (fun x hx => h x (List.mem_cons_of_mem a hx))

theorem foldl_congr2 {α β : Type} {f g : β → α → β} (hfg : ∀ b a, f b a = g b a) :
    ∀ (l : List α) (b : β), l.foldl f b = l.foldl g b
  | [], _ => rfl
  | a :: as, b => by
    rw [List.foldl_cons, List.foldl_cons, hfg]
    exact foldl_congr2 hfg as (g b a)

theorem omap_some_self {α : Type} {f : α → Option α} :
    ∀ {l : List α}, (∀ a ∈ l, f a = some a) → omap f l = some l
  | [], _ => rfl
  | a :: as, h => by
    have ha := h a (List.mem_cons_self a as)
    have ih := omap_some_self (f := f) (fun x hx => h x (List.mem_cons_of_mem a hx))
    simp [omap, ha, ih]

theorem omap_get? {α β : Type} {f : α → Option β} :
    ∀ {l : List α} {l' : List β}, omap f l = some l' →
      ∀ (i : Nat) (a : α), l[i]? = some a → ∃ b, l'[i]? = some b ∧ f a = some b := by
  intro l
  induction l with
  | nil => intro l' _ i a ha; simp at ha
  | cons x xs ih =>
    intro l' hl i a ha
    rw [omap] at hl
    cases hfx : f x with
    | none => rw [hfx] at hl; simp at hl
    | some b0 =>
      rw [hfx] at hl
      cases hxs : omap f xs with
      | none => rw [hxs] at hl; simp at hl
      | some bs =>
        rw [hxs] at hl
        simp at hl
        subst hl
        cases i with
        | zero =>
          simp at ha; subst ha
          exact ⟨b0, by simp, hfx⟩
        | succ j =>
          simp at ha ⊢
          exact ih hxs j a ha

theorem omap_get?_rev {α β : Type} {f : α → Option β} :
    ∀ {l : List α} {l' : List β}, omap f l = some l' →
      ∀ (i : Nat) (b : β), l'[i]? = some b → ∃ a, l[i]? = some a ∧ f a = some b := by
  intro l
  induction l with
  | nil =>
    intro l' hl i b hb
    simp [omap] at hl; subst hl; simp at hb
  | cons x xs ih =>
    intro l' hl i b hb
    rw [omap] at hl
    cases hfx : f x with
    | none => rw [hfx] at hl; simp at hl
    | some b0 =>
      rw [hfx] at hl
      cases hxs : omap f xs with
      | none => rw [hxs] at hl; simp at hl
      | some bs =>
        rw [hxs] at hl
        simp at hl
        subst hl
        cases i with
        | zero =>
          simp at hb; subst hb
          exact ⟨x, by simp, hfx⟩
        | succ j =>
          simp at hb ⊢
          exact ih hxs j b hb

theorem omap_mem_fwd {α β : Type} {f : α → Option β} :
    ∀ {l : List α} {l' : List β}, omap f l = some l' →
      ∀ a ∈ l, ∃ b ∈ l', f a = some b := by
  intro l
  induction l with
  | nil => intro l' _ a ha; simp at ha
  | cons x xs ih =>
    intro l' hl a ha
    rw [omap] at hl
    cases hfx : f x with
    | none => rw [hfx] at hl; simp at hl
    | some b0 =>
      rw [hfx] at hl
      cases hxs : omap f xs with
      | none => rw [hxs] at hl; simp at hl
      | some bs =>
        rw [hxs] at hl
        simp at hl
        subst hl
        rcases List.mem_cons.1 ha with h | h
        · subst h; exact ⟨b0, List.mem_cons_self _ _, hfx⟩
        · obtain ⟨b, hb, hfb⟩ := ih hxs a h
          exact ⟨b, List.mem_cons_of_mem _ hb, hfb⟩

theorem omap_mem_back {α β : Type} {f : α → Option β} :
    ∀ {l : List α} {l' : List β}, omap f l = some l' →
      ∀ b ∈ l', ∃ a ∈ l, f a = some b := by
  intro l
  induction l with
  | nil => intro l' hl b hb; simp [omap] at hl; subst hl; simp at hb
  | cons x xs ih =>
    intro l' hl b hb
    rw [omap] at hl
    cases hfx : f x with
    | none => rw [hfx] at hl; simp at hl
    | some b0 =>
      rw [hfx] at hl
      cases hxs : omap f xs with
      | none => rw [hxs] at hl; simp at hl
      | some bs =>
        rw [hxs] at hl
        simp at hl
        subst hl
        rcases List.mem_cons.1 hb with h | h
        · subst h; exact ⟨x, List.mem_cons_self _ _, hfx⟩
        · obtain ⟨a, ha, hfa⟩ := ih hxs b h
          exact ⟨a, List.mem_cons_of_mem _ ha, hfa⟩

theorem ratMean_eq_none_iff {l : List Rat} : ratMean l = none ↔ l = [] := by
  cases l <;> simp [ratMean]

theorem insertSorted_length (x : Rat) : ∀ (l : List Rat),
    (insertSorted x l).length = l.length + 1
  | [] => rfl
  | y :: ys => by
    rw [insertSorted]
    split
    · rfl
    · simp [insertSorted_length x ys]

theorem sortRats_length : ∀ (l : List Rat), (sortRats l).length = l.length
  | [] => rfl
  | x :: xs => by
    simp [sortRats, List.foldr_cons]
    rw [show List.foldr insertSorted [] xs = sortRats xs from rfl]
    rw [insertSorted_length, sortRats_length xs]

theorem ratMedian_isSome {l : List Rat} (h : l ≠ []) : (ratMedian l).isSome := by
  have hlen : (sortRats l).length = l.length := sortRats_length l
  have hpos : 0 < l.length := List.length_pos.2 h
  rw [ratMedian, if_neg (by omega)]
  by_cases hodd : (sortRats l).length % 2 = 1
  · rw [if_pos hodd, List.getElem?_eq_getElem (by omega)]
    rfl
  · rw [if_neg hodd, List.getElem?_eq_getElem (by omega), List.getElem?_eq_getElem (by omega)]
    rfl

theorem filterMap_filter_nil {α β : Type} {d : List α} {p : α → Bool} {g : α → Option β}
    (h : (d.filter p).filterMap g = []) : ∀ x ∈ d, p x → g x = none := by
  intro x hx hpx
  have hmem : x ∈ d.filter p := List.mem_filter.2 ⟨hx, hpx⟩
  cases hgx : g x with
  | none => rfl
  | some v =>
    have : v ∈ (d.filter p).filterMap g := List.mem_filterMap.2 ⟨x, hmem, hgx⟩
    rw [h] at this
    simp at this

/-! ## Distance-column access lemmas -/

theorem DCol.get_set_self (c : DCol) (v : Option Rat) (r : Row) : c.get (c.set v r) = v := by
  cases c <;> rfl

theorem DCol.get_set_ne {c c' : DCol} (h : c' ≠ c) (v : Option Rat) (r : Row) :
    c'.get (c.set v r) = c'.get r := by
  cases c <;> cases c' <;> first | rfl | exact absurd rfl h

theorem DCol.set_get_self (c : DCol) (r : Row) : c.set (c.get r) r = r := by
  cases c <;> rfl

theorem DCol.set_sameNonDist (c : DCol) (v : Option Rat) (r : Row) :
    SameNonDist (c.set v r) r := by
  cases c <;> exact ⟨rfl, rfl, rfl, rfl, rfl, rfl, rfl, rfl⟩

theorem sameNonDist_refl (r : Row) : SameNonDist r r :=
  ⟨rfl, rfl, rfl, rfl, rfl, rfl, rfl, rfl⟩

theorem sameNonDist_trans {a b c : Row} (h1 : SameNonDist a b) (h2 : SameNonDist b c) :
    SameNonDist a c :=
  ⟨h1.1.trans h2.1, h1.2.1.trans h2.2.1, h1.2.2.1.trans h2.2.2.1,
   h1.2.2.2.1.trans h2.2.2.2.1, h1.2.2.2.2.1.trans h2.2.2.2.2.1,
   h1.2.2.2.2.2.1.trans h2.2.2.2.2.2.1, h1.2.2.2.2.2.2.1.trans h2.2.2.2.2.2.2.1,
   h1.2.2.2.2.2.2.2.trans h2.2.2.2.2.2.2.2⟩

/-! ## The condition-imputation pass: the in-place loop with its lazy cache
computes the same result as the pure per-row rule over the original data -/

theorem lookupStats_eq_some {cache : List (String × PriceStats)} {city : String}
    {s : PriceStats} : lookupStats cache city = some s → (city, s) ∈ cache := by
  induction cache with
  | nil => intro h; simp [lookupStats] at h
  | cons p rest ih =>
    intro h
    rw [show p = (p.1, p.2) from rfl, lookupStats] at h
    by_cases hc : p.1 = city
    · rw [if_pos hc] at h
      have hs : p.2 = s := by injection h
      subst hc
      subst hs
      exact List.mem_cons_self p rest
    · rw [if_neg hc] at h
      exact List.mem_cons_of_mem _ (ih h)

theorem lookupStats_eq_none {cache : List (String × PriceStats)} {city : String} :
    lookupStats cache city = none → city ∉ cache.map Prod.fst := by
  induction cache with
  | nil => intro _ h; simp at h
  | cons p rest ih =>
    intro h hm
    rw [show p = (p.1, p.2) from rfl, lookupStats] at h
    by_cases hc : p.1 = city
    · rw [if_pos hc] at h; exact Option.noConfusion h
    · rw [if_neg hc] at h
      rcases List.mem_cons.1 hm with h1 | h1
      · exact hc (by simpa using h1.symm)
      · exact ih h h1

theorem forall2_map_self {α : Type} {R : α → α → Prop} {f : α → α} :
    ∀ {l : List α}, (∀ x ∈ l, R (f x) x) → List.Forall₂ R (l.map f) l
  | [], _ => List.Forall₂.nil
  | x :: xs, h =>
    List.Forall₂.cons (h x (List.mem_cons_self x xs))
      (forall2_map_self (fun y hy => h y (List.mem_cons_of_mem x hy)))

theorem forall2_refl_of {α : Type} {R : α → α → Prop} :
    ∀ {l : List α}, (∀ x ∈ l, R x x) → List.Forall₂ R l l
  | [], _ => List.Forall₂.nil
  | x :: xs, h =>
    List.Forall₂.cons (h x (List.mem_cons_self x xs))
      (forall2_refl_of (fun y hy => h y (List.mem_cons_of_mem x hy)))

theorem forall2_append {α : Type} {R : α → α → Prop} :
    ∀ {l₁ l₂ l₃ l₄ : List α}, List.Forall₂ R l₁ l₂ → List.Forall₂ R l₃ l₄ →
      List.Forall₂ R (l₁ ++ l₃) (l₂ ++ l₄) := by
  intro l₁ l₂ l₃ l₄ h1 h2
  induction h1 with
  | nil => exact h2
  | cons hab _ ih => exact List.Forall₂.cons hab ih

theorem filter_congr_cityAgnostic {c : String} {p : Row → Bool}
    (hp : ∀ r, p r = true → r.city = c) :
    ∀ {l₁ l₂ : Dataset}, List.Forall₂ (cityAgnostic c) l₁ l₂ →
      l₁.filter p = l₂.filter p := by
  intro l₁ l₂ h
  induction h with
  | nil => rfl
  | @cons a b t₁ t₂ hab _ ih =>
    rcases hab with heq | ⟨ha, hb⟩
    · subst heq; simp only [List.filter_cons]; rw [ih]
    · have hpa : p a = false := by
        cases hpa : p a with
        | true => exact absurd (hp a hpa) ha
        | false => rfl
      have hpb : p b = false := by
        cases hpb : p b with
        | true => exact absurd (hp b hpb) hb
        | false => rfl
      simp only [List.filter_cons, hpa, hpb]
      simpa using ih

theorem condPriceBand_congr {c : String} (cond : String) {l₁ l₂ : Dataset}
    (h : List.Forall₂ (cityAgnostic c) l₁ l₂) :
    condPriceBand l₁ c cond = condPriceBand l₂ c cond := by
  unfold condPriceBand
  rw [filter_congr_cityAgnostic (fun r hr => (of_decide_eq_true hr).1) h]

theorem get_price_stats_congr {c : String} {l₁ l₂ : Dataset}
    (h : List.Forall₂ (cityAgnostic c) l₁ l₂) :
    get_price_stats_for_city l₁ c = get_price_stats_for_city l₂ c := by
  unfold get_price_stats_for_city
  rw [condPriceBand_congr "premium" h, condPriceBand_congr "low" h]

theorem condImputeRow_city (d : Dataset) (r : Row) : (condImputeRow d r).city = r.city := by
  unfold condImputeRow; split <;> rfl

theorem condImputeRow_of_not_null {d : Dataset} {r : Row} (h : ¬ r.condition = Val.null) :
    condImputeRow d r = r := by
  unfold condImputeRow; rw [if_neg h]

theorem condImputeRow_of_null {d : Dataset} {r : Row} (h : r.condition = Val.null) :
    condImputeRow d r = { r with condition := Val.str (conditionFor d r) } := by
  unfold condImputeRow; rw [if_pos h]

theorem fillConditionGo_hit {done rest : List Row} {cache : List (String × PriceStats)}
    {r : Row} {s : PriceStats} (hr : r.condition = Val.null)
    (hlk : lookupStats cache r.city = some s) :
    fillConditionGo done (r :: rest) cache =
      fillConditionGo (done ++ [{ r with condition := Val.str (condLabel s r.price) }]) rest cache := by
  rw [fillConditionGo, if_pos hr, hlk]

theorem fillConditionGo_miss {done rest : List Row} {cache : List (String × PriceStats)}
    {r : Row} (hr : r.condition = Val.null) (hlk : lookupStats cache r.city = none) :
    fillConditionGo done (r :: rest) cache =
      fillConditionGo (done ++ [{ r with condition := Val.str (condLabel (get_price_stats_for_city (done ++ r :: rest) r.city) r.price) }]) rest ((r.city, get_price_stats_for_city (done ++ r :: rest) r.city) :: cache) := by
  rw [fillConditionGo, if_pos hr, hlk]

theorem fillConditionGo_skip {done rest : List Row} {cache : List (String × PriceStats)}
    {r : Row} (hr : ¬ r.condition = Val.null) :
    fillConditionGo done (r :: rest) cache = fillConditionGo (done ++ [r]) rest cache := by
  rw [fillConditionGo, if_neg hr]

theorem fillGo_spec (orig : Dataset) :
    ∀ (todo pre : List Row) (cache : List (String × PriceStats)),
      orig = pre ++ todo →
      (∀ p ∈ cache, p.2 = get_price_stats_for_city orig p.1) →
      (∀ r ∈ pre, r.condition = Val.null → r.city ∈ cache.map Prod.fst) →
      (cache.map Prod.fst).Nodup →
      (fillConditionGo (pre.map (condImputeRow orig)) todo cache).1 =
        orig.map (condImputeRow orig) ∧
      (∀ p ∈ (fillConditionGo (pre.map (condImputeRow orig)) todo cache).2,
        p.2 = get_price_stats_for_city orig p.1) ∧
      ((fillConditionGo (pre.map (condImputeRow orig)) todo cache).2.map Prod.fst).Nodup := by
  intro todo
  induction todo with
  | nil =>
    intro pre cache horig hcache _ hnd
    rw [List.append_nil] at horig
    subst horig
    exact ⟨rfl, hcache, hnd⟩
  | cons r rest ih =>
    intro pre cache horig hcache hcov hnd
    by_cases hr : r.condition = Val.null
    · cases hlk : lookupStats cache r.city with
      | some s =>
        have hs : s = get_price_stats_for_city orig r.city :=
          hcache (r.city, s) (lookupStats_eq_some hlk)
        have hrow : ({ r with condition := Val.str (condLabel s r.price) } : Row) = condImputeRow orig r := by
          rw [condImputeRow_of_null hr, hs]
          rfl
        have happend : pre.map (condImputeRow orig) ++
            [({ r with condition := Val.str (condLabel s r.price) } : Row)] =
            (pre ++ [r]).map (condImputeRow orig) := by
          rw [List.map_append, List.map_singleton, hrow]
        rw [fillConditionGo_hit hr hlk, happend]
        exact ih (pre ++ [r]) cache (by rw [horig, List.append_assoc]; rfl) hcache
          (by
            intro x hx hxc
            rcases List.mem_append.1 hx with h1 | h1
            · exact hcov x h1 hxc
            · have : x = r := by simpa using h1
              subst this
              exact List.mem_map.2 ⟨(x.city, s), lookupStats_eq_some hlk, rfl⟩)
          hnd
      | none =>
        have hmiss : r.city ∉ cache.map Prod.fst := lookupStats_eq_none hlk
        have hrel : List.Forall₂ (cityAgnostic r.city)
            (pre.map (condImputeRow orig) ++ r :: rest) (pre ++ r :: rest) := by
          refine forall2_append (forall2_map_self ?_) (forall2_refl_of ?_)
          · intro x hx
            by_cases hxc : x.condition = Val.null
            · right
              have hxcity : x.city ∈ cache.map Prod.fst := hcov x hx hxc
              have hne : x.city ≠ r.city := fun he => hmiss (he ▸ hxcity)
              exact ⟨by rw [condImputeRow_city]; exact hne, hne⟩
            · left; rw [condImputeRow_of_not_null hxc]
          · intro x _; left; rfl
        have hstat : get_price_stats_for_city (pre.map (condImputeRow orig) ++ r :: rest)
            r.city = get_price_stats_for_city orig r.city := by
          rw [get_price_stats_congr hrel, horig]
        have hrow : ({ r with condition := Val.str (condLabel (get_price_stats_for_city (pre.map (condImputeRow orig) ++ r :: rest) r.city) r.price) } : Row) = condImputeRow orig r := by
          rw [condImputeRow_of_null hr, hstat]
          rfl
        have happend : pre.map (condImputeRow orig) ++
            [({ r with condition := Val.str (condLabel (get_price_stats_for_city (pre.map (condImputeRow orig) ++ r :: rest) r.city) r.price) } : Row)] =
            (pre ++ [r]).map (condImputeRow orig) := by
          rw [List.map_append, List.map_singleton, hrow]
        rw [fillConditionGo_miss hr hlk, happend]
        exact ih (pre ++ [r])
          ((r.city, get_price_stats_for_city
            (pre.map (condImputeRow orig) ++ r :: rest) r.city) :: cache)
          (by rw [horig, List.append_assoc]; rfl)
          (by
            intro p hp
            rcases List.mem_cons.1 hp with h1 | h1
            · subst h1; exact hstat
            · exact hcache p h1)
          (by
            intro x hx hxc
            rcases List.mem_append.1 hx with h1 | h1
            · exact List.mem_cons_of_mem _ (hcov x h1 hxc)
            · have : x = r := by simpa using h1
              subst this
              exact List.mem_cons_self _ _)
          (by
            rw [List.map_cons]
            exact List.Nodup.cons (by simpa using hmiss) hnd)
    · have happend : pre.map (condImputeRow orig) ++ [r] =
          (pre ++ [r]).map (condImputeRow orig) := by
        rw [List.map_append, List.map_singleton, condImputeRow_of_not_null hr]
      rw [fillConditionGo_skip hr, happend]
      exact ih (pre ++ [r]) cache (by rw [horig, List.append_assoc]; rfl) hcache
        (by
          intro x hx hxc
          rcases List.mem_append.1 hx with h1 | h1
          · exact hcov x h1 hxc
          · have : x = r := by simpa using h1
            subst this
            exact absurd hxc hr)
        hnd

/-- The in-place, cache-assisted loop of `fill_condition` is the pure map of
`condImputeRow` over the original dataset. -/
theorem fill_condition_eq_map (d : Dataset) : fill_condition d = d.map (condImputeRow d) :=
  (fillGo_spec d d [] [] rfl (by simp) (by simp) (by simp)).1

/-- Every entry of the final stats cache holds the stats of the original
dataset, and no city is cached twice. -/
theorem fillConditionFull_cache (d : Dataset) :
    (∀ p ∈ (fillConditionFull d).2, p.2 = get_price_stats_for_city d p.1) ∧
    ((fillConditionFull d).2.map Prod.fst).Nodup :=
  ⟨(fillGo_spec d d [] [] rfl (by simp) (by simp) (by simp)).2.1,
   (fillGo_spec d d [] [] rfl (by simp) (by simp) (by simp)).2.2⟩

/-! ## The distance-columns pass -/

theorem list_map_congr {α β : Type} {l : List α} {f g : α → β}
    (h : ∀ a ∈ l, f a = g a) : l.map f = l.map g := by
  induction l with
  | nil => rfl
  | cons a as ih =>
    have ha := h a (List.mem_cons_self a as)
    have ih' := ih (fun x hx => h x (List.mem_cons_of_mem a hx))
    simp [ha, ih']

theorem crossFill_eq_map (c : DCol) :
    ∀ (cs : List DCol) (d : Dataset), crossFill c cs d = d.map (crossFillRowAmended c cs)
  | [], d => by
    rw [crossFill, List.foldl_nil]
    refine (list_map_self ?_).symm
    intro r _
    rw [crossFillRowAmended]
    cases hc : c.get r with
    | some v => rw [if_neg (by simp [hc])]
    | none =>
      rw [if_pos (by simp [hc])]
      show c.set (firstSome []) r = r
      rw [show firstSome [] = none from rfl, ← hc, DCol.set_get_self]
  | c' :: cs, d => by
    have h1 : crossFill c (c' :: cs) d =
        crossFill c cs (d.map (fun r => if (c.get r).isNone then c.set (c'.get r) r else r)) := by
      rw [crossFill, crossFill, List.foldl_cons]
    rw [h1, crossFill_eq_map c cs, List.map_map]
    refine list_map_congr ?_
    intro r _
    show crossFillRowAmended c cs
        (if (c.get r).isNone then c.set (c'.get r) r else r) = crossFillRowAmended c (c' :: cs) r
    cases hc : c.get r with
    | some v =>
      rw [if_neg (by simp [hc])]
      unfold crossFillRowAmended
      rw [if_neg (by simp [hc]), if_neg (by simp [hc])]
    | none =>
      rw [if_pos (by simp [hc])]
      unfold crossFillRowAmended
      cases hc' : c'.get r with
      | some w =>
        rw [if_neg (by simp [DCol.get_set_self])]
        rw [if_pos (by simp [hc])]
        simp only [List.map_cons]
        rw [hc']
        rfl
      | none =>
        have hg : c.set none r = r := by
          rw [← hc]
          exact DCol.set_get_self c r
        rw [hg]
        rw [if_pos (by simp [hc]), if_pos (by simp [hc])]
        simp only [List.map_cons]
        rw [hc']
        rfl

theorem distStep_eq_amended (d : Dataset) (c : DCol) : distStep d c = distStepAmended d c := by
  unfold distStep distStepAmended
  rw [crossFill_eq_map]

theorem distStep_eq_mapmap (d : Dataset) (c : DCol) :
    distStep d c = (d.map (crossFillRowAmended c (eligFor c d))).map
      (meanRowF (d.map (crossFillRowAmended c (eligFor c d))) c) := by
  unfold distStep
  rw [crossFill_eq_map]

theorem crossAm_sameNonDist (c : DCol) (cs : List DCol) (r : Row) :
    SameNonDist (crossFillRowAmended c cs r) r := by
  rw [crossFillRowAmended]
  split
  · exact DCol.set_sameNonDist c _ r
  · exact sameNonDist_refl r

theorem crossAm_get_ne {c c' : DCol} (h : c' ≠ c) (cs : List DCol) (r : Row) :
    c'.get (crossFillRowAmended c cs r) = c'.get r := by
  rw [crossFillRowAmended]
  split
  · rw [DCol.get_set_ne h]
  · rfl

theorem crossAm_of_some {c : DCol} {cs : List DCol} {r : Row} (h : c.get r ≠ none) :
    crossFillRowAmended c cs r = r := by
  rw [crossFillRowAmended, if_neg (by simpa using h)]

theorem crossAm_null_back {c : DCol} {cs : List DCol} {r : Row}
    (h : c.get (crossFillRowAmended c cs r) = none) : c.get r = none := by
  by_contra hc
  rw [crossAm_of_some hc] at h
  exact hc h

theorem meanRowF_sameNonDist (d : Dataset) (c : DCol) (r : Row) :
    SameNonDist (meanRowF d c r) r := by
  rw [meanRowF]
  rcases c.get r with _ | v
  · rcases ratMean (cityColVals d c r.city) with _ | m
    · exact sameNonDist_refl r
    · exact DCol.set_sameNonDist c _ r
  · exact sameNonDist_refl r

theorem meanRowF_get_ne {c c' : DCol} (h : c' ≠ c) (d : Dataset) (r : Row) :
    c'.get (meanRowF d c r) = c'.get r := by
  rw [meanRowF]
  rcases c.get r with _ | v
  · rcases ratMean (cityColVals d c r.city) with _ | m
    · rfl
    · rw [DCol.get_set_ne h]
  · rfl

theorem meanRowF_of_some {d : Dataset} {c : DCol} {r : Row} (h : c.get r ≠ none) :
    meanRowF d c r = r := by
  rw [meanRowF]
  rcases hc : c.get r with _ | v
  · exact absurd hc h
  · rfl

theorem meanRowF_null_back {d : Dataset} {c : DCol} {r : Row}
    (h : c.get (meanRowF d c r) = none) :
    c.get r = none ∧ ratMean (cityColVals d c r.city) = none := by
  rcases hc : c.get r with _ | v
  · rcases hm : ratMean (cityColVals d c r.city) with _ | m
    · exact ⟨rfl, rfl⟩
    · rw [meanRowF, hc, hm] at h
      rw [DCol.get_set_self] at h
      exact Option.noConfusion h
  · rw [meanRowF_of_some (by rw [hc]; simp)] at h
    rw [hc] at h
    exact Option.noConfusion h

theorem distStep_mem_back {d : Dataset} {c : DCol} :
    ∀ r' ∈ distStep d c, ∃ r ∈ d, SameNonDist r' r ∧
      (∀ c' : DCol, c' ≠ c → c'.get r' = c'.get r) ∧ (c.get r ≠ none → r' = r) := by
  rw [distStep_eq_mapmap]
  intro r' hr'
  obtain ⟨r1, hr1, he1⟩ := List.mem_map.1 hr'
  obtain ⟨r0, hr0, he0⟩ := List.mem_map.1 hr1
  subst he1
  subst he0
  refine ⟨r0, hr0, ?_, ?_, ?_⟩
  · exact sameNonDist_trans (meanRowF_sameNonDist _ _ _) (crossAm_sameNonDist _ _ _)
  · intro c' hc'
    rw [meanRowF_get_ne hc', crossAm_get_ne hc']
  · intro hsome
    rw [crossAm_of_some hsome, meanRowF_of_some hsome]

theorem distStep_mem_fwd {d : Dataset} {c : DCol} :
    ∀ r ∈ d, ∃ r' ∈ distStep d c, SameNonDist r' r ∧
      (∀ c' : DCol, c' ≠ c → c'.get r' = c'.get r) ∧ (c.get r ≠ none → r' = r) := by
  rw [distStep_eq_mapmap]
  intro r hr
  refine ⟨meanRowF (d.map (crossFillRowAmended c (eligFor c d))) c
      (crossFillRowAmended c (eligFor c d) r), ?_, ?_, ?_, ?_⟩
  · exact List.mem_map.2 ⟨crossFillRowAmended c (eligFor c d) r,
      List.mem_map.2 ⟨r, hr, rfl⟩, rfl⟩
  · exact sameNonDist_trans (meanRowF_sameNonDist _ _ _) (crossAm_sameNonDist _ _ _)
  · intro c' hc'
    rw [meanRowF_get_ne hc', crossAm_get_ne hc']
  · intro hsome
    rw [crossAm_of_some hsome, meanRowF_of_some hsome]

theorem distStep_null_back {d : Dataset} {c : DCol} :
    ∀ r' ∈ distStep d c, c.get r' = none →
      ∀ r₂ ∈ d, r₂.city = r'.city → c.get r₂ = none := by
  rw [distStep_eq_mapmap]
  intro r' hr' hnull r₂ hr₂ hcity
  obtain ⟨r1, hr1, he1⟩ := List.mem_map.1 hr'
  obtain ⟨r0, hr0, he0⟩ := List.mem_map.1 hr1
  have hnull1 : c.get (meanRowF (d.map (crossFillRowAmended c (eligFor c d))) c r1) = none := by
    rw [he1]
    exact hnull
  obtain ⟨hget1, hmean⟩ := meanRowF_null_back hnull1
  have hempty : cityColVals (d.map (crossFillRowAmended c (eligFor c d))) c r1.city = [] :=
    ratMean_eq_none_iff.1 hmean
  have hcity1 : r1.city = r'.city := by
    rw [← he1]
    exact (meanRowF_sameNonDist _ _ _).1.symm
  cases hc2 : c.get r₂ with
  | none => rfl
  | some v =>
    have hmem2 : crossFillRowAmended c (eligFor c d) r₂ ∈
        d.map (crossFillRowAmended c (eligFor c d)) := List.mem_map.2 ⟨r₂, hr₂, rfl⟩
    have hp : decide ((crossFillRowAmended c (eligFor c d) r₂).city = r1.city) = true := by
      rw [decide_eq_true_eq, (crossAm_sameNonDist c _ r₂).1, hcity, hcity1]
    have := filterMap_filter_nil hempty _ hmem2 hp
    rw [crossAm_of_some (by rw [hc2]; simp)] at this
    rw [hc2] at this
    exact Option.noConfusion this

theorem distFold_mem_back :
    ∀ (cols : List DCol) (d : Dataset), ∀ r' ∈ cols.foldl distStep d,
      ∃ r ∈ d, SameNonDist r' r ∧ (∀ c : DCol, c ∉ cols → c.get r' = c.get r)
  | [], d => fun r' hr' => ⟨r', hr', sameNonDist_refl r', fun _ _ => rfl⟩
  | a :: rest, d => by
    intro r' hr'
    rw [List.foldl_cons] at hr'
    obtain ⟨rm, hrm, hsame, hcols⟩ := distFold_mem_back rest (distStep d a) r' hr'
    obtain ⟨r, hr, hsame2, hother2, _⟩ := distStep_mem_back rm hrm
    refine ⟨r, hr, sameNonDist_trans hsame hsame2, ?_⟩
    intro c hc
    have hca : c ≠ a := fun he => hc (he ▸ List.mem_cons_self a rest)
    have hcrest : c ∉ rest := fun hm => hc (List.mem_cons_of_mem _ hm)
    rw [hcols c hcrest, hother2 c hca]

theorem distFold_null_back :
    ∀ (cols : List DCol), cols.Nodup → ∀ c ∈ cols, ∀ (d : Dataset),
      ∀ r' ∈ cols.foldl distStep d, c.get r' = none →
        ∀ r₂ ∈ d, r₂.city = r'.city → c.get r₂ = none
  | [], _, c, hc => absurd hc (List.not_mem_nil c)
  | a :: rest, hnd, c, hc => by
    intro d r' hr' hnull r₂ hr₂ hcity
    rw [List.foldl_cons] at hr'
    have ha : a ∉ rest := (List.nodup_cons.1 hnd).1
    have hndr : rest.Nodup := (List.nodup_cons.1 hnd).2
    rcases List.mem_cons.1 hc with hceq | hcrest
    · subst hceq
      obtain ⟨rm, hrm, hsame, hcols⟩ := distFold_mem_back rest (distStep d c) r' hr'
      have hnullm : c.get rm = none := by rw [← hcols c ha]; exact hnull
      have hcitym : r₂.city = rm.city := by rw [hcity, hsame.1]
      exact distStep_null_back rm hrm hnullm r₂ hr₂ hcitym
    · have hca : c ≠ a := fun he => ha (he ▸ hcrest)
      obtain ⟨r₂', hr₂', hsame2, hother2, _⟩ := distStep_mem_fwd r₂ hr₂
      have hcity2 : r₂'.city = r'.city := by rw [hsame2.1, hcity]
      have := distFold_null_back rest hndr c hcrest (distStep d a) r' hr' hnull r₂' hr₂' hcity2
      rw [← hother2 c hca]
      exact this

/-! ## Per-rule field preservation -/

theorem condImputeRow_keeps (d : Dataset) (r : Row) :
    (condImputeRow d r).city = r.city ∧
    (condImputeRow d r).buildingMaterial = r.buildingMaterial ∧
    (condImputeRow d r).typ = r.typ ∧
    (condImputeRow d r).buildYear = r.buildYear ∧
    (condImputeRow d r).floorCount = r.floorCount ∧
    (condImputeRow d r).floor = r.floor ∧
    (condImputeRow d r).hasElevator = r.hasElevator ∧
    (∀ c : DCol, c.get (condImputeRow d r) = c.get r) := by
  unfold condImputeRow
  split
  · exact ⟨rfl, rfl, rfl, rfl, rfl, rfl, rfl, fun c => by cases c <;> rfl⟩
  · exact ⟨rfl, rfl, rfl, rfl, rfl, rfl, rfl, fun c => rfl⟩

theorem condImputeRow_ne_null (d : Dataset) (r : Row) :
    (condImputeRow d r).condition ≠ Val.null := by
  unfold condImputeRow
  split
  · intro h
    exact Val.noConfusion h
  · next h => exact h

theorem bmRow_keeps (m : String) (r : Row) :
    (bmRow m r).city = r.city ∧
    (bmRow m r).condition = r.condition ∧
    (bmRow m r).typ = r.typ ∧
    (bmRow m r).buildYear = r.buildYear ∧
    (bmRow m r).floorCount = r.floorCount ∧
    (bmRow m r).floor = r.floor ∧
    (bmRow m r).hasElevator = r.hasElevator ∧
    (∀ c : DCol, c.get (bmRow m r) = c.get r) := by
  unfold bmRow
  split
  · exact ⟨rfl, rfl, rfl, rfl, rfl, rfl, rfl, fun c => by cases c <;> rfl⟩
  · exact ⟨rfl, rfl, rfl, rfl, rfl, rfl, rfl, fun c => rfl⟩

theorem bmRow_ne_null (m : String) (r : Row) : (bmRow m r).buildingMaterial ≠ Val.null := by
  unfold bmRow
  split
  · intro h
    exact Val.noConfusion h
  · next h => exact h

theorem typRow_keeps (m : String) (r : Row) :
    (typRow m r).city = r.city ∧
    (typRow m r).condition = r.condition ∧
    (typRow m r).buildingMaterial = r.buildingMaterial ∧
    (typRow m r).buildYear = r.buildYear ∧
    (typRow m r).floorCount = r.floorCount ∧
    (typRow m r).floor = r.floor ∧
    (typRow m r).hasElevator = r.hasElevator ∧
    (∀ c : DCol, c.get (typRow m r) = c.get r) := by
  unfold typRow
  split
  · exact ⟨rfl, rfl, rfl, rfl, rfl, rfl, rfl, fun c => by cases c <;> rfl⟩
  · exact ⟨rfl, rfl, rfl, rfl, rfl, rfl, rfl, fun c => rfl⟩

theorem typRow_ne_null (m : String) (r : Row) : (typRow m r).typ ≠ Val.null := by
  unfold typRow
  split
  · intro h
    exact Val.noConfusion h
  · next h => exact h

theorem byRow_keeps (d : Dataset) (r : Row) :
    (byRow d r).city = r.city ∧
    (byRow d r).condition = r.condition ∧
    (byRow d r).buildingMaterial = r.buildingMaterial ∧
    (byRow d r).typ = r.typ ∧
    (byRow d r).floorCount = r.floorCount ∧
    (byRow d r).floor = r.floor ∧
    (byRow d r).hasElevator = r.hasElevator ∧
    (∀ c : DCol, c.get (byRow d r) = c.get r) := by
  unfold byRow
  rcases r.buildYear with _ | y
  · exact ⟨rfl, rfl, rfl, rfl, rfl, rfl, rfl, fun c => by cases c <;> rfl⟩
  · exact ⟨rfl, rfl, rfl, rfl, rfl, rfl, rfl, fun c => rfl⟩

theorem byRow_of_some {d : Dataset} {r : Row} {y : Rat} (h : r.buildYear = some y) :
    byRow d r = r := by
  unfold byRow
  rw [h]

theorem byRow_null_back {d : Dataset} {r : Row} (h : (byRow d r).buildYear = none) :
    r.buildYear = none ∧ ratMedian (cityBuildYears d r.city) = none := by
  rcases hb : r.buildYear with _ | y
  · constructor
    · rfl
    · rw [byRow, hb] at h
      exact h
  · rw [byRow_of_some hb, hb] at h
    exact Option.noConfusion h

theorem fcRow_keeps (d : Dataset) (r : Row) :
    (fcRow d r).city = r.city ∧
    (fcRow d r).condition = r.condition ∧
    (fcRow d r).buildingMaterial = r.buildingMaterial ∧
    (fcRow d r).typ = r.typ ∧
    (fcRow d r).buildYear = r.buildYear ∧
    (fcRow d r).floor = r.floor ∧
    (fcRow d r).hasElevator = r.hasElevator ∧
    (∀ c : DCol, c.get (fcRow d r) = c.get r) := by
  unfold fcRow
  rcases r.floorCount with _ | q
  · rcases ratMean (allFloorCounts d) with _ | m
    · exact ⟨rfl, rfl, rfl, rfl, rfl, rfl, rfl, fun c => rfl⟩
    · exact ⟨rfl, rfl, rfl, rfl, rfl, rfl, rfl, fun c => by cases c <;> rfl⟩
  · exact ⟨rfl, rfl, rfl, rfl, rfl, rfl, rfl, fun c => by cases c <;> rfl⟩

theorem fcRow_null_back {d : Dataset} {r : Row} (h : (fcRow d r).floorCount = none) :
    r.floorCount = none ∧ ratMean (allFloorCounts d) = none := by
  rcases hq : r.floorCount with _ | q
  · rcases hm : ratMean (allFloorCounts d) with _ | m
    · exact ⟨rfl, rfl⟩
    · rw [fcRow, hq, hm] at h
      exact Option.noConfusion h
  · rw [fcRow, hq] at h
    exact Option.noConfusion h

theorem fcRow_of_some {d : Dataset} {r : Row} {q : Rat} (h : r.floorCount = some q) :
    fcRow d r = { r with floorCount := some ((pyRound q : Int) : Rat) } := by
  unfold fcRow
  rw [h]

theorem floorRow_shape {d : Dataset} {r r' : Row} (h : floorRow d r = some r') :
    r'.city = r.city ∧
    r'.condition = r.condition ∧
    r'.buildingMaterial = r.buildingMaterial ∧
    r'.typ = r.typ ∧
    r'.buildYear = r.buildYear ∧
    r'.floorCount = r.floorCount ∧
    r'.hasElevator = r.hasElevator ∧
    (∀ c : DCol, c.get r' = c.get r) ∧
    r'.floor ≠ none := by
  rcases hf : r.floor with _ | f
  · rcases hq : r.floorCount with _ | q
    · rcases hm : ratMean (allFloors d) with _ | m
      · simp only [floorRow, hf, hq, hm, Option.map_none'] at h
        exact Option.noConfusion h
      · simp only [floorRow, hf, hq, hm, Option.map_some', Option.some.injEq] at h
        subst h
        refine ⟨rfl, rfl, rfl, rfl, rfl, rfl, rfl, fun c => by cases c <;> rfl,
          fun hcon => Option.noConfusion hcon⟩
    · rcases hm : ratMean (groupFloors d q) with _ | m
      · simp only [floorRow, hf, hq, hm, Option.map_none'] at h
        exact Option.noConfusion h
      · simp only [floorRow, hf, hq, hm, Option.map_some', Option.some.injEq] at h
        subst h
        refine ⟨rfl, rfl, rfl, rfl, rfl, rfl, rfl, fun c => by cases c <;> rfl,
          fun hcon => Option.noConfusion hcon⟩
  · simp only [floorRow, hf, Option.some.injEq] at h
    subst h
    refine ⟨rfl, rfl, rfl, rfl, rfl, rfl, rfl, fun c => rfl, ?_⟩
    rw [hf]
    exact fun hcon => Option.noConfusion hcon

theorem floorRow_of_some {d : Dataset} {r : Row} {f : Rat} (h : r.floor = some f) :
    floorRow d r = some r := by
  rw [floorRow, h]

theorem heRow_shape {r r' : Row} (h : heRow r = some r') :
    r'.city = r.city ∧
    r'.condition = r.condition ∧
    r'.buildingMaterial = r.buildingMaterial ∧
    r'.typ = r.typ ∧
    r'.buildYear = r.buildYear ∧
    r'.floorCount = r.floorCount ∧
    r'.floor = r.floor ∧
    (∀ c : DCol, c.get r' = c.get r) ∧
    r'.hasElevator ≠ Val.null := by
  by_cases hh : r.hasElevator = Val.null
  · rcases hq : r.floorCount with _ | q
    · simp only [heRow, if_pos hh, hq] at h
      exact Option.noConfusion h
    · simp only [heRow, if_pos hh, hq, Option.some.injEq] at h
      subst h
      refine ⟨rfl, rfl, rfl, rfl, rfl, rfl, rfl, fun c => by cases c <;> rfl,
        fun hcon => Val.noConfusion hcon⟩
  · simp only [heRow, if_neg hh, Option.some.injEq] at h
    subst h
    exact ⟨rfl, rfl, rfl, rfl, rfl, rfl, rfl, fun c => rfl, hh⟩

theorem heRow_of_not_null {r : Row} (h : ¬ r.hasElevator = Val.null) : heRow r = some r := by
  rw [heRow, if_neg h]

theorem rynV_ne_null {v : Val} (h : v ≠ Val.null) : rynV v ≠ Val.null := by
  unfold rynV
  split
  · exact fun hc => Val.noConfusion hc
  · split
    · exact fun hc => Val.noConfusion hc
    · exact h

theorem rynV_of_other {v : Val} (h1 : v ≠ Val.str "yes") (h2 : v ≠ Val.str "no") :
    rynV v = v := by
  unfold rynV
  rw [if_neg h1, if_neg h2]

theorem rynRow_keeps (r : Row) :
    (rynRow r).city = r.city ∧
    (rynRow r).buildYear = r.buildYear ∧
    (rynRow r).floorCount = r.floorCount ∧
    (rynRow r).floor = r.floor ∧
    (rynRow r).condition = rynV r.condition ∧
    (rynRow r).buildingMaterial = rynV r.buildingMaterial ∧
    (rynRow r).typ = rynV r.typ ∧
    (rynRow r).hasElevator = rynV r.hasElevator ∧
    (∀ c : DCol, c.get (rynRow r) = c.get r) :=
  ⟨rfl, rfl, rfl, rfl, rfl, rfl, rfl, rfl, fun c => by cases c <;> rfl⟩

theorem ownV_ne_null {v : Val} (h : v ≠ Val.null) : ownV v ≠ Val.null := by
  unfold ownV
  split
  · exact fun hc => Val.noConfusion hc
  · exact h

theorem ownRow_keeps (r : Row) :
    (ownRow r).city = r.city ∧
    (ownRow r).condition = r.condition ∧
    (ownRow r).buildingMaterial = r.buildingMaterial ∧
    (ownRow r).typ = r.typ ∧
    (ownRow r).buildYear = r.buildYear ∧
    (ownRow r).floorCount = r.floorCount ∧
    (ownRow r).floor = r.floor ∧
    (ownRow r).hasElevator = r.hasElevator ∧
    (∀ c : DCol, c.get (ownRow r) = c.get r) :=
  ⟨rfl, rfl, rfl, rfl, rfl, rfl, rfl, rfl, fun c => by cases c <;> rfl⟩

/-! ## Mode existence -/

theorem foldl_modePick_some (L : List String) :
    ∀ (l : List String) (b : String), ∃ m, l.foldl (modePick L) (some b) = some m
  | [], b => ⟨b, rfl⟩
  | x :: xs, b => by
    rw [List.foldl_cons]
    rcases hmp : modePick L (some b) x with _ | b'
    · exfalso
      rw [modePick] at hmp
      split at hmp
      · exact Option.noConfusion hmp
      · split at hmp
        · exact Option.noConfusion hmp
        · exact Option.noConfusion hmp
    · exact foldl_modePick_some L xs b'

theorem seriesMode_isSome {l : List String} (h : l ≠ []) : ∃ m, seriesMode l = some m := by
  cases l with
  | nil => exact absurd rfl h
  | cons x xs =>
    rw [seriesMode, List.foldl_cons]
    rw [show modePick (x :: xs) none x = some x from rfl]
    exact foldl_modePick_some (x :: xs) xs x

/-! ## Step identity on already-clean data -/

theorem pyRound_denOne {q : Rat} (h : q.den = 1) : ((pyRound q : Int) : Rat) = q := by
  obtain ⟨n, hn⟩ : ∃ n : Int, q = (n : Rat) := ⟨q.num, (Rat.coe_int_num_of_den_eq_one h).symm⟩
  subst hn
  rw [pyRound, Int.floor_intCast, sub_self, if_pos (by norm_num)]

theorem fill_condition_id {d : Dataset} (h : ∀ r ∈ d, r.condition ≠ Val.null) :
    fill_condition d = d := by
  rw [fill_condition_eq_map]
  exact list_map_self (fun r hr => condImputeRow_of_not_null (h r hr))

theorem fill_missing_building_material_id {d : Dataset} (hm : matVals d ≠ [])
    (hnn : ∀ r ∈ d, r.buildingMaterial ≠ Val.null) :
    fill_missing_building_material d = some d := by
  obtain ⟨m, hmode⟩ := seriesMode_isSome hm
  rw [fill_missing_building_material, hmode, Option.map_some']
  rw [list_map_self (fun r hr => by rw [bmRow, if_neg (hnn r hr)])]

theorem fill_missing_type_id {d : Dataset} (hm : typVals d ≠ [])
    (hnn : ∀ r ∈ d, r.typ ≠ Val.null) : fill_missing_type d = some d := by
  obtain ⟨m, hmode⟩ := seriesMode_isSome hm
  rw [fill_missing_type, hmode, Option.map_some']
  rw [list_map_self (fun r hr => by rw [typRow, if_neg (hnn r hr)])]

theorem fill_missing_build_year_id {d : Dataset} (h : ∀ r ∈ d, r.buildYear ≠ none) :
    fill_missing_build_year d = d := by
  rw [fill_missing_build_year]
  refine list_map_self (fun r hr => ?_)
  rcases hy : r.buildYear with _ | y
  · exact absurd hy (h r hr)
  · exact byRow_of_some hy

theorem fill_missing_floor_count_id {d : Dataset}
    (h : ∀ r ∈ d, ∀ q : Rat, r.floorCount = some q → q.den = 1)
    (h2 : ∀ r ∈ d, r.floorCount ≠ none) : fill_missing_floor_count d = d := by
  rw [fill_missing_floor_count]
  refine list_map_self (fun r hr => ?_)
  rcases hq : r.floorCount with _ | q
  · exact absurd hq (h2 r hr)
  · rw [fcRow_of_some hq, pyRound_denOne (h r hr q hq), ← hq]

theorem fill_missing_floor_id {d : Dataset} (h : ∀ r ∈ d, r.floor ≠ none) :
    fill_missing_floor d = some d := by
  rw [fill_missing_floor]
  refine omap_some_self (fun r hr => ?_)
  rcases hf : r.floor with _ | f
  · exact absurd hf (h r hr)
  · exact floorRow_of_some hf

theorem distStep_id {d : Dataset} {c : DCol} (h : ∀ r ∈ d, c.get r ≠ none) :
    distStep d c = d := by
  have hany : d.any (fun r => (c.get r).isNone) = false := by
    rw [List.any_eq_false]
    intro r hr
    simpa using h r hr
  have helig : eligFor c d = [] := by
    rw [eligFor]
    rw [List.filter_eq_nil_iff]
    intro a _
    rw [hany]
    simp
  rw [distStep, helig]
  rw [show crossFill c [] d = d from rfl]
  exact list_map_self (fun r hr => meanRowF_of_some (h r hr))

theorem fill_missing_distances_id {d : Dataset} (h : ∀ r ∈ d, ∀ c : DCol, c.get r ≠ none) :
    fill_missing_distances d = d := by
  rw [fill_missing_distances]
  exact foldl_fixed (fun c _ => distStep_id (fun r hr => h r hr c))

theorem fill_missing_has_elevator_id {d : Dataset} (h : ∀ r ∈ d, r.hasElevator ≠ Val.null) :
    fill_missing_has_elevator d = some d := by
  rw [fill_missing_has_elevator]
  exact omap_some_self (fun r hr => heRow_of_not_null (h r hr))

theorem rynRow_id {r : Row}
    (h : ∀ v ∈ [r.condition, r.buildingMaterial, r.typ, r.hasElevator, r.ownership],
      v ≠ Val.str "yes" ∧ v ≠ Val.str "no") : rynRow r = r := by
  have h1 := h r.condition (by simp)
  have h2 := h r.buildingMaterial (by simp)
  have h3 := h r.typ (by simp)
  have h4 := h r.hasElevator (by simp)
  have h5 := h r.ownership (by simp)
  rw [rynRow, rynV_of_other h1.1 h1.2, rynV_of_other h2.1 h2.2, rynV_of_other h3.1 h3.2,
    rynV_of_other h4.1 h4.2, rynV_of_other h5.1 h5.2]

theorem replace_yes_no_id {d : Dataset}
    (h : ∀ r ∈ d, ∀ v ∈ [r.condition, r.buildingMaterial, r.typ, r.hasElevator, r.ownership],
      v ≠ Val.str "yes" ∧ v ≠ Val.str "no") : replace_yes_no d = d := by
  rw [replace_yes_no]
  exact list_map_self (fun r hr => rynRow_id (h r hr))

theorem replace_ownership_value_id {d : Dataset} (h : ∀ r ∈ d, r.ownership ≠ Val.str "udział") :
    replace_ownership_value d = d := by
  rw [replace_ownership_value]
  refine list_map_self (fun r hr => ?_)
  rw [ownRow, ownV, if_neg (h r hr)]

/-! ## The lexicographic string order and the mode characterization -/

theorem charListLt_irrefl : ∀ l : List Char, charListLt l l = false
  | [] => rfl
  | a :: as => by
    rw [charListLt, if_neg (lt_irrefl a), if_neg (lt_irrefl a)]
    exact charListLt_irrefl as

theorem charListLt_trans : ∀ (l1 l2 l3 : List Char),
    charListLt l1 l2 = true → charListLt l2 l3 = true → charListLt l1 l3 = true := by
  intro l1
  induction l1 with
  | nil =>
    intro l2 l3 h1 h2
    cases l2 with
    | nil => exact absurd h1 (by rw [charListLt]; simp)
    | cons b bs =>
      cases l3 with
      | nil => exact absurd h2 (by rw [charListLt]; simp)
      | cons c cs => rfl
  | cons a as ih =>
    intro l2 l3 h1 h2
    cases l2 with
    | nil => exact absurd h1 (by rw [charListLt]; simp)
    | cons b bs =>
      cases l3 with
      | nil => exact absurd h2 (by rw [charListLt]; simp)
      | cons c cs =>
        rw [charListLt] at h1 h2 ⊢
        by_cases hab : a < b
        · by_cases hbc : b < c
          · rw [if_pos (lt_trans hab hbc)]
          · by_cases hcb : c < b
            · rw [if_neg hbc, if_pos hcb] at h2
              exact absurd h2 (by simp)
            · have hbceq : b = c := le_antisymm (not_lt.1 hcb) (not_lt.1 hbc)
              rw [if_pos (hbceq ▸ hab)]
        · rw [if_neg hab] at h1
          by_cases hba : b < a
          · rw [if_pos hba] at h1
            exact absurd h1 (by simp)
          · rw [if_neg hba] at h1
            have habeq : a = b := le_antisymm (not_lt.1 hba) (not_lt.1 hab)
            subst habeq
            by_cases hac : a < c
            · rw [if_pos hac]
            · rw [if_neg hac] at h2 ⊢
              by_cases hca : c < a
              · rw [if_pos hca] at h2
                exact absurd h2 (by simp)
              · rw [if_neg hca] at h2 ⊢
                exact ih bs cs h1 h2

theorem charListLt_neg_trans : ∀ (l1 l2 l3 : List Char),
    charListLt l1 l2 = false → charListLt l2 l3 = false → charListLt l1 l3 = false := by
  intro l1
  induction l1 with
  | nil =>
    intro l2 l3 h1 h2
    cases l2 with
    | nil =>
      cases l3 with
      | nil => rfl
      | cons c cs => exact absurd h2 (by rw [charListLt]; simp)
    | cons b bs => exact absurd h1 (by rw [charListLt]; simp)
  | cons a as ih =>
    intro l2 l3 h1 h2
    cases l3 with
    | nil => rw [charListLt]
    | cons c cs =>
      cases l2 with
      | nil => exact absurd h2 (by rw [charListLt]; simp)
      | cons b bs =>
        rw [charListLt] at h1 h2 ⊢
        by_cases hab : a < b
        · rw [if_pos hab] at h1
          exact absurd h1 (by simp)
        · rw [if_neg hab] at h1
          by_cases hba : b < a
          · by_cases hbc : b < c
            · rw [if_pos hbc] at h2
              exact absurd h2 (by simp)
            · by_cases hcb : c < b
              · have hca : c < a := lt_trans hcb hba
                rw [if_neg (fun hac => lt_irrefl a (lt_trans hac hca)), if_pos hca]
              · have hbceq : b = c := le_antisymm (not_lt.1 hcb) (not_lt.1 hbc)
                subst hbceq
                rw [if_neg (fun hac => lt_irrefl a (lt_trans hac hba)), if_pos hba]
          · rw [if_neg hba] at h1
            have habeq : a = b := le_antisymm (not_lt.1 hba) (not_lt.1 hab)
            subst habeq
            by_cases hac : a < c
            · rw [if_pos hac] at h2
              exact absurd h2 (by simp)
            · rw [if_neg hac] at h2 ⊢
              by_cases hca : c < a
              · rw [if_pos hca]
              · rw [if_neg hca] at h2 ⊢
                exact ih bs cs h1 h2

theorem strLt_irrefl (s : String) : strLt s s = false := charListLt_irrefl s.data

theorem strLt_trans {s t u : String} (h1 : strLt s t = true) (h2 : strLt t u = true) :
    strLt s u = true := charListLt_trans s.data t.data u.data h1 h2

theorem strLt_neg_trans {s t u : String} (h1 : strLt s t = false) (h2 : strLt t u = false) :
    strLt s u = false := charListLt_neg_trans s.data t.data u.data h1 h2

theorem foldl_modePick_spec (L : List String) :
    ∀ (l : List String) (b m : String),
      l.foldl (modePick L) (some b) = some m →
      (m = b ∨ m ∈ l) ∧
      countVal L b ≤ countVal L m ∧ (∀ v ∈ l, countVal L v ≤ countVal L m) ∧
      (countVal L b = countVal L m → strLt b m = false) ∧
      (∀ v ∈ l, countVal L v = countVal L m → strLt v m = false) := by
  intro l
  induction l with
  | nil =>
    intro b m h
    rw [List.foldl_nil] at h
    injection h with hbm
    subst hbm
    exact ⟨Or.inl rfl, le_refl _, by simp, fun _ => strLt_irrefl b, by simp⟩
  | cons x xs ih =>
    intro b m h
    rw [List.foldl_cons, modePick] at h
    by_cases hgt : countVal L x > countVal L b
    · rw [if_pos hgt] at h
      obtain ⟨hmem, hxle, hall, hxtie, halltie⟩ := ih x m h
      refine ⟨?_, ?_, ?_, ?_, ?_⟩
      · rcases hmem with h1 | h1
        · exact Or.inr (h1 ▸ List.mem_cons_self x xs)
        · exact Or.inr (List.mem_cons_of_mem x h1)
      · exact le_trans (le_of_lt hgt) hxle
      · intro v hv
        rcases List.mem_cons.1 hv with h1 | h1
        · exact h1 ▸ hxle
        · exact hall v h1
      · intro heq
        exact absurd heq (by omega)
      · intro v hv heq
        rcases List.mem_cons.1 hv with h1 | h1
        · exact h1 ▸ hxtie (h1 ▸ heq)
        · exact halltie v h1 heq
    · rw [if_neg hgt] at h
      by_cases htie : countVal L x = countVal L b ∧ strLt x b
      · rw [if_pos htie] at h
        obtain ⟨hmem, hxle, hall, hxtie, halltie⟩ := ih x m h
        refine ⟨?_, ?_, ?_, ?_, ?_⟩
        · rcases hmem with h1 | h1
          · exact Or.inr (h1 ▸ List.mem_cons_self x xs)
          · exact Or.inr (List.mem_cons_of_mem x h1)
        · exact htie.1 ▸ hxle
        · intro v hv
          rcases List.mem_cons.1 hv with h1 | h1
          · exact h1 ▸ hxle
          · exact hall v h1
        · intro heq
          have hxm : strLt x m = false := hxtie (by omega)
          cases hbm : strLt b m with
          | false => rfl
          | true =>
            have := strLt_trans htie.2 hbm
            rw [this] at hxm
            exact Bool.noConfusion hxm
        · intro v hv heq
          rcases List.mem_cons.1 hv with h1 | h1
          · exact h1 ▸ hxtie (h1 ▸ heq)
          · exact halltie v h1 heq
      · rw [if_neg htie] at h
        obtain ⟨hmem, hble, hall, hbtie, halltie⟩ := ih b m h
        have hxleb : countVal L x ≤ countVal L b := by omega
        refine ⟨?_, hble, ?_, hbtie, ?_⟩
        · rcases hmem with h1 | h1
          · exact Or.inl h1
          · exact Or.inr (List.mem_cons_of_mem x h1)
        · intro v hv
          rcases List.mem_cons.1 hv with h1 | h1
          · exact h1 ▸ le_trans hxleb hble
          · exact hall v h1
        · intro v hv heq
          rcases List.mem_cons.1 hv with h1 | h1
          · subst h1
            have hxb : countVal L v = countVal L b := by omega
            have hvb : strLt v b = false := by
              cases hvb : strLt v b with
              | false => rfl
              | true => exact absurd ⟨hxb, hvb⟩ htie
            have hbm : strLt b m = false := hbtie (by omega)
            exact strLt_neg_trans hvb hbm
          · exact halltie v h1 heq

theorem seriesMode_spec {l : List String} {m : String} (h : seriesMode l = some m) :
    m ∈ l ∧ (∀ v ∈ l, countVal l v ≤ countVal l m) ∧
    (∀ v ∈ l, countVal l v = countVal l m → strLt v m = false) := by
  cases l with
  | nil => exact absurd h (by rw [seriesMode]; simp)
  | cons x xs =>
    rw [seriesMode, List.foldl_cons, show modePick (x :: xs) none x = some x from rfl] at h
    obtain ⟨hmem, hxle, hall, hxtie, halltie⟩ := foldl_modePick_spec (x :: xs) xs x m h
    refine ⟨?_, ?_, ?_⟩
    · rcases hmem with h1 | h1
      · exact h1 ▸ List.mem_cons_self x xs
      · exact List.mem_cons_of_mem x h1
    · intro v hv
      rcases List.mem_cons.1 hv with h1 | h1
      · exact h1 ▸ hxle
      · exact hall v h1
    · intro v hv heq
      rcases List.mem_cons.1 hv with h1 | h1
      · exact h1 ▸ hxtie (h1 ▸ heq)
      · exact halltie v h1 heq

example : pyRound (5/2) = 2 := by decide
example : pyRound (7/2) = 4 := by decide
example : pyRound (47/10) = 5 := by decide
example : pyRound (-5/2) = -2 := by decide
example : seriesMode ["wood", "brick"] = some "brick" := by decide
example : modeFirstAppearance ["wood", "brick"] = some "wood" := by decide
example : ratMedian [3, 1, 2] = some 2 := by decide
example : ratMedian [4, 1, 2, 3] = some (5/2) := by decide


/-! ## Floor-row case equations -/

theorem floorRow_eq_of_none_some {d : Dataset} {r : Row} {q : Rat}
    (hff : r.floor = none) (hq : r.floorCount = some q) :
    floorRow d r = (ratMean (groupFloors d q)).map
      (fun m => { r with floor := some ((pyRound m : Int) : Rat) }) := by
  simp only [floorRow, hff, hq]

theorem floorRow_eq_of_none_none {d : Dataset} {r : Row}
    (hff : r.floor = none) (hq : r.floorCount = none) :
    floorRow d r = (ratMean (allFloors d)).map
      (fun m => { r with floor := some ((pyRound m : Int) : Rat) }) := by
  simp only [floorRow, hff, hq]

/-! ## Claims -/

/-- C3: for every row missing `condition`, `fill_condition` assigns
`premium` when the row's price lies within the closed min/max band of the
prices of same-city rows already labeled `premium`, otherwise `low` when
within the same-city `low` band, otherwise `medium` — with the bands taken
from the pre-imputation dataset (`conditionFor`/`condLabel` spell out
exactly that rule). -/
theorem claim3_condition_rule (d : Dataset) (i : Nat) (r : Row)
    (hi : d[i]? = some r) (hc : r.condition = Val.null) :
    (fill_condition d)[i]? = some { r with condition := Val.str (conditionFor d r) } := by
  rw [fill_condition_eq_map, List.getElem?_map, hi, Option.map_some', condImputeRow_of_null hc]

/-- Witness for C3: in the 3-row Warsaw dataset with condition
[null, premium, low] and price [500000, 800000, 200000], the null row is
imputed `medium`. -/
theorem claim3_witness :
    rW30.condition = Val.null ∧
    (fill_condition dW3)[0]? = some { rW30 with condition := Val.str (conditionFor dW3 rW30) } ∧
    conditionFor dW3 rW30 = "medium" :=
  ⟨rfl, claim3_condition_rule dW3 0 rW30 (by decide) rfl, by decide⟩

/-- C4: every per-city stats record the condition pass caches — the bounds
used to impute every missing row of that city — equals the stats computed
from the original, pre-imputation dataset, and each city is cached at most
once (so bounds are computed at most once per city and are never affected
by condition values imputed earlier in the same pass). -/
theorem claim4_bounds_pre_imputation (d : Dataset) :
    (∀ (c : String) (s : PriceStats), (c, s) ∈ (fillConditionFull d).2 →
      s = get_price_stats_for_city d c) ∧
    ((fillConditionFull d).2.map Prod.fst).Nodup := by
  obtain ⟨h1, h2⟩ := fillConditionFull_cache d
  exact ⟨fun c s hcs => h1 (c, s) hcs, h2⟩

/-- Witness for C4: on a concrete dataset the cached Krakow stats are the
pre-imputation premium/low bands. -/
theorem claim4_witness :
    ("Krakow", ({ premium := some (some 800000, some 800000), low := some (some 200000, some 200000) } : PriceStats)) ∈ (fillConditionFull dW4).2 ∧
    ({ premium := some (some 800000, some 800000), low := some (some 200000, some 200000) } : PriceStats) = get_price_stats_for_city dW4 "Krakow" :=
  ⟨by decide, (claim4_bounds_pre_imputation dW4).1 "Krakow" _ (by decide)⟩

/-- C5 counterexample: on `dX5` the code cross-fills row 0's missing
schoolDistance from clinicDistance (3) although clinicDistance has no
nulls remaining in the dataset, whereas the claimed eligibility ("columns
that still have nulls remaining elsewhere") would leave it to the city
mean fill (10). -/
theorem claim5_counterexample :
    ((fill_missing_distances dX5)[0]?).map Row.schoolDistance = some (some 3) ∧
    ((fill_missing_distances_claim dX5)[0]?).map Row.schoolDistance = some (some 10) :=
  ⟨by decide, by decide⟩

/-- C5 amended: for each target column in the fixed order [school, clinic,
postOffice, kindergarten, restaurant, college, pharmacy], the step first
fills the target column's nulls row-wise with the first value, in that
same order, among the other distance columns that are non-null on that
row and hold at least one non-null value in the dataset (considered while
the target column still has a null), and afterwards fills any remaining
nulls with the per-city mean of the target column
(`fill_missing_distances_amended` spells out that row-wise rule). -/
theorem claim5_distances_amended (d : Dataset) :
    fill_missing_distances d = fill_missing_distances_amended d := by
  rw [fill_missing_distances, fill_missing_distances_amended]
  exact foldl_congr2 distStep_eq_amended dcolOrder d

/-- C9: running the full step sequence of `process_file` on a dataset that
is already a fully imputed, normalized pipeline output (no nulls in the
covered columns, integral floorCount, no remaining yes/no tokens, no
remaining original-language ownership token — with at least one string
value in each of the two mode-filled columns, as any pipeline output of
string-valued categorical data has) changes nothing: the run succeeds and
returns the dataset unchanged. -/
theorem claim9_idempotent (d : Dataset) (hm : matVals d ≠ []) (ht : typVals d ≠ [])
    (h : ∀ r ∈ d, CleanRow r) : process_file_steps d = some d := by
  rw [process_file_steps, stagesTo_distances,
    fill_condition_id (fun r hr => (h r hr).1),
    fill_missing_building_material_id hm (fun r hr => (h r hr).2.1)]
  simp only [Option.some_bind]
  rw [fill_missing_type_id ht (fun r hr => (h r hr).2.2.1)]
  simp only [Option.some_bind]
  rw [fill_missing_build_year_id (fun r hr => (h r hr).2.2.2.2.1),
    fill_missing_floor_count_id (fun r hr => (h r hr).2.2.2.2.2.1)
      (fun r hr => (h r hr).2.2.2.2.2.2.1),
    fill_missing_floor_id (fun r hr => (h r hr).2.2.2.2.2.2.2.1)]
  simp only [Option.map_some']
  rw [fill_missing_distances_id (fun r hr => (h r hr).2.2.2.2.2.2.2.2.1)]
  simp only [Option.some_bind]
  rw [fill_missing_has_elevator_id (fun r hr => (h r hr).2.2.2.1)]
  simp only [Option.map_some']
  rw [replace_yes_no_id (fun r hr => (h r hr).2.2.2.2.2.2.2.2.2.1),
    replace_ownership_value_id (fun r hr => (h r hr).2.2.2.2.2.2.2.2.2.2)]

/-- Witness for C9: a concrete fully imputed one-row dataset is returned
unchanged by a second full pipeline run. -/
theorem claim9_witness : process_file_steps dW9 = some dW9 := by
  have hclean : CleanRow rClean := by
    refine ⟨by decide, by decide, by decide, by decide, by decide, ?_, by decide, by decide,
      ?_, by decide, by decide⟩
    · intro q hq
      have h6 : (some (6 : Rat) : Option Rat) = some q := hq
      injection h6 with h6'
      rw [← h6']
      decide
    · intro c
      cases c <;> decide
  exact claim9_idempotent dW9 (by decide) (by decide)
    (fun r hr => by
      have : r = rClean := by simpa [dW9] using hr
      rw [this]
      exact hclean)

/-- C10: `fill_missing_floor_count` rounds every non-null `floorCount`
value — altering originally non-null fractional values — and only the
null entries receive the (rounded) dataset-wide mean, staying null when
no mean exists. -/
theorem claim10_floor_count_frame (d : Dataset) (i : Nat) (r : Row) (hi : d[i]? = some r) :
    (∀ q : Rat, r.floorCount = some q →
      (fill_missing_floor_count d)[i]? =
        some { r with floorCount := some ((pyRound q : Int) : Rat) }) ∧
    (r.floorCount = none →
      (fill_missing_floor_count d)[i]? = some (fcRow d r) ∧
      (fcRow d r).floorCount =
        (ratMean (allFloorCounts d)).map (fun m => ((pyRound m : Int) : Rat))) := by
  constructor
  · intro q hq
    rw [fill_missing_floor_count, List.getElem?_map, hi, Option.map_some', fcRow_of_some hq]
  · intro hq
    constructor
    · rw [fill_missing_floor_count, List.getElem?_map, hi, Option.map_some']
    · rcases hm : ratMean (allFloorCounts d) with _ | m
      · simp [fcRow, hq, hm]
      · simp [fcRow, hq, hm]

/-- Witness for C10: an originally non-null floorCount of 4.7 is rounded to
5 by the step, hence altered. -/
theorem claim10_witness :
    (fill_missing_floor_count dW10)[0]? =
      some { rW10 with floorCount := some ((pyRound (47/10 : Rat) : Int) : Rat) } ∧
    ((pyRound (47/10 : Rat) : Int) : Rat) = 5 ∧ (47/10 : Rat) ≠ 5 :=
  ⟨(claim10_floor_count_frame dW10 0 rW10 (by decide)).1 (47/10) rfl, by decide, by decide⟩


/-- C6 counterexample: with materials [wood, brick, null] the step fills the
null with "brick" (pandas mode()[0] is sorted ascending), not with the
first-appearing most-frequent value "wood" as the claim's tie-breaking
asserts. -/
theorem claim6_counterexample :
    ((fill_missing_building_material dX6).bind (fun l => l[2]?)).map Row.buildingMaterial =
      some (Val.str "brick") ∧
    modeFirstAppearance (matVals dX6) = some "wood" ∧ "brick" ≠ "wood" :=
  ⟨by decide, by decide, by decide⟩

/-- C6 amended: for buildingMaterial and for type, the mode-fill step fills
every null with the most frequent non-null value of the column over the
whole dataset, where ties among equally frequent values are broken toward
the smallest value in the lexicographic (code point) order — the order in
which pandas `Series.mode` sorts its result — not by first appearance;
non-null cells pass through unchanged. -/
theorem claim6_mode_fill_amended (d d' : Dataset) :
    (fill_missing_building_material d = some d' →
      ∃ m, seriesMode (matVals d) = some m ∧ m ∈ matVals d ∧
        (∀ v ∈ matVals d, countVal (matVals d) v ≤ countVal (matVals d) m) ∧
        (∀ v ∈ matVals d, countVal (matVals d) v = countVal (matVals d) m →
          strLt v m = false) ∧
        d' = d.map (bmRow m)) ∧
    (fill_missing_type d = some d' →
      ∃ m, seriesMode (typVals d) = some m ∧ m ∈ typVals d ∧
        (∀ v ∈ typVals d, countVal (typVals d) v ≤ countVal (typVals d) m) ∧
        (∀ v ∈ typVals d, countVal (typVals d) v = countVal (typVals d) m →
          strLt v m = false) ∧
        d' = d.map (typRow m)) := by
  constructor
  · intro h
    rw [fill_missing_building_material] at h
    cases hm : seriesMode (matVals d) with
    | none => rw [hm] at h; exact Option.noConfusion h
    | some m =>
      rw [hm, Option.map_some'] at h
      injection h with hd
      obtain ⟨hmem, hle, htie⟩ := seriesMode_spec hm
      exact ⟨m, rfl, hmem, hle, htie, hd.symm⟩
  · intro h
    rw [fill_missing_type] at h
    cases hm : seriesMode (typVals d) with
    | none => rw [hm] at h; exact Option.noConfusion h
    | some m =>
      rw [hm, Option.map_some'] at h
      injection h with hd
      obtain ⟨hmem, hle, htie⟩ := seriesMode_spec hm
      exact ⟨m, rfl, hmem, hle, htie, hd.symm⟩

/-- Witness for the amended C6 on `dX6`: the mode is "brick" and it fills
the null. -/
theorem claim6_witness :
    seriesMode (matVals dX6) = some "brick" ∧ "brick" ∈ matVals dX6 ∧
    dX6res = dX6.map (bmRow "brick") := by
  obtain ⟨m, hm, hmem, _, _, hd⟩ := (claim6_mode_fill_amended dX6 dX6res).1 (by decide)
  have hmb : m = "brick" := by
    have h2 : seriesMode (matVals dX6) = some "brick" := by decide
    rw [hm, Option.some.injEq] at h2
    exact h2
  subst hmb
  exact ⟨hm, hmem, hd⟩


/-- C8 counterexample: on `dX8` the claim predicts the missing-floor row is
assigned the dataset-wide mean floor (4) because its floorCount group has
no mean, but the code looks the group key up (it exists — the row itself
is in the group), gets a NaN mean and `round(NaN)` raises: the step
fails. -/
theorem claim8_counterexample :
    fill_missing_floor dX8 = none ∧ ratMean (allFloors dX8) = some 4 :=
  ⟨by decide, by decide⟩

/-- C8 amended: when the step succeeds, a row with non-null floor passes
through unchanged; a missing-floor row with non-null floorCount is
assigned the rounded mean floor of the rows sharing its floorCount (the
group exists — the row itself belongs to it — and must have a non-null
floor, else the step fails); only a missing-floor row whose floorCount is
null falls back to the rounded dataset-wide mean floor. -/
theorem claim8_floor_rule_amended (d d' : Dataset) (i : Nat) (r : Row)
    (h : fill_missing_floor d = some d') (hi : d[i]? = some r) :
    (∀ f : Rat, r.floor = some f → d'[i]? = some r) ∧
    (r.floor = none → ∀ q : Rat, r.floorCount = some q →
      ∃ m, ratMean (groupFloors d q) = some m ∧
        d'[i]? = some { r with floor := some ((pyRound m : Int) : Rat) }) ∧
    (r.floor = none → r.floorCount = none →
      ∃ m, ratMean (allFloors d) = some m ∧
        d'[i]? = some { r with floor := some ((pyRound m : Int) : Rat) }) := by
  rw [fill_missing_floor] at h
  obtain ⟨r', hget, hf⟩ := omap_get? h i r hi
  refine ⟨?_, ?_, ?_⟩
  · intro f hff
    rw [floorRow_of_some hff] at hf
    injection hf with he
    rw [hget, ← he]
  · intro hff q hq
    rw [floorRow_eq_of_none_some hff hq] at hf
    obtain ⟨m, hm, hlit⟩ := Option.map_eq_some'.1 hf
    exact ⟨m, hm, by rw [hget, ← hlit]⟩
  · intro hff hq
    rw [floorRow_eq_of_none_none hff hq] at hf
    obtain ⟨m, hm, hlit⟩ := Option.map_eq_some'.1 hf
    exact ⟨m, hm, by rw [hget, ← hlit]⟩

/-- Witness for the amended C8: on `dW8` the missing-floor row of
floorCount group 2 receives the rounded group mean 4. -/
theorem claim8_witness :
    ratMean (groupFloors dW8 2) = some 4 ∧
    dW8res[0]? = some { rW80 with floor := some ((pyRound (4 : Rat) : Int) : Rat) } := by
  obtain ⟨m, hm, hg⟩ :=
    (claim8_floor_rule_amended dW8 dW8res 0 rW80 (by decide) (by decide)).2.1 rfl 2 rfl
  have hm4 : m = 4 := by
    have h2 : ratMean (groupFloors dW8 2) = some 4 := by decide
    rw [hm, Option.some.injEq] at h2
    exact h2
  subst hm4
  exact ⟨hm, hg⟩

/-- C7: after the full pipeline, every row that entered step 4.8 with
hasElevator missing holds 1 exactly when its post-imputation floorCount
exceeds 5 and 0 otherwise, and rows with a non-null hasElevator pass
through step 4.8 unchanged. -/
theorem claim7_elevator_rule (d d7 : Dataset) (i : Nat) (r7 : Row)
    (h7 : stagesTo_distances d = some d7) (hr : d7[i]? = some r7) :
    (∀ (d' : Dataset) (q : Rat), process_file_steps d = some d' →
      r7.hasElevator = Val.null → r7.floorCount = some q →
      (d'[i]?).map Row.hasElevator = some (if 5 < q then Val.num 1 else Val.num 0)) ∧
    (∀ d8 : Dataset, fill_missing_has_elevator d7 = some d8 → r7.hasElevator ≠ Val.null →
      d8[i]? = some r7) := by
  constructor
  · intro d' q hp hnull hq
    rw [process_file_steps, h7] at hp
    have hp' : (fill_missing_has_elevator d7).map
        (fun d8 => replace_ownership_value (replace_yes_no d8)) = some d' := hp
    cases hhe : fill_missing_has_elevator d7 with
    | none =>
      rw [hhe] at hp'
      exact Option.noConfusion hp'
    | some d8 =>
      rw [hhe, Option.map_some'] at hp'
      injection hp' with hd'
      obtain ⟨r8, h8get, h8f⟩ := omap_get? hhe i r7 hr
      rw [heRow, if_pos hnull, hq] at h8f
      simp only [Option.some.injEq] at h8f
      rw [← hd', replace_ownership_value, replace_yes_no, List.map_map, List.getElem?_map,
        h8get, Option.map_some', Option.map_some']
      rw [← h8f]
      by_cases h5 : 5 < q
      · simp [ownRow, rynRow, rynV, ownV, h5, Function.comp]
      · simp [ownRow, rynRow, rynV, ownV, h5, Function.comp]
  · intro d8 h8 hnn
    obtain ⟨r8, h8get, h8f⟩ := omap_get? h8 i r7 hr
    rw [heRow_of_not_null hnn] at h8f
    injection h8f with he
    rw [h8get, ← he]

/-- C2: the claim fails on the code — `process_file` discards the return
value of `remove_non_unique_ids` (`drop_duplicates` is not in place), so
after the deduplication step the pipeline's dataset still carries both
rows with id 1, while the discarded computation itself would have kept
only the first. -/
theorem claim2_duplicate_ids_survive :
    (remove_non_unique_ids dX2).map Row.id = [1] ∧
    (process_file_steps dX2).map (fun l => l.map Row.id) = some [1, 1] :=
  ⟨by decide, by decide⟩


/-- Witness for C7: on `dW7` the row with floorCount 6 (strictly above 5)
ends the pipeline holding 1. -/
theorem claim7_witness :
    (dW7res[0]?).map Row.hasElevator = some (if (5 : Rat) < 6 then Val.num 1 else Val.num 0) :=
  (claim7_elevator_rule dW7 dW7 0 rW70 (by decide) (by decide)).1 dW7res 6 (by decide)
    (by decide) (by decide)


/-- C1 counterexample: on a one-row dataset whose seven distance columns are
all null (and whose buildYear is present, so the claim's sole tolerated
exception does not apply), the pipeline completes and leaves
schoolDistance null: there is no cross-fill source and the city has no
non-null exemplar for the column, so the per-city mean is NaN and
`fillna` leaves the null in place. -/
theorem claim1_counterexample :
    (process_file_steps dX1).map (fun l => l.map Row.schoolDistance) = some [none] ∧
    (process_file_steps dX1).map (fun l => l.map Row.buildYear) = some [some 2000] :=
  ⟨by decide, by decide⟩

/-- C1 amended: whenever the pipeline completes, `condition`,
`buildingMaterial`, `type`, `floor` and `hasElevator` contain zero nulls;
`buildYear` can stay null only on rows whose city has no non-null
buildYear exemplar in the input; `floorCount` can stay null only when the
whole input column is null; and a distance column can stay null only on
rows whose city has no non-null exemplar of that column in the input. -/
theorem claim1_amended_completeness (d d' : Dataset) (h : process_file_steps d = some d') :
    (∀ r' ∈ d', r'.condition ≠ Val.null ∧ r'.buildingMaterial ≠ Val.null ∧
      r'.typ ≠ Val.null ∧ r'.floor ≠ none ∧ r'.hasElevator ≠ Val.null) ∧
    (∀ r' ∈ d', r'.buildYear = none → ∀ r₂ ∈ d, r₂.city = r'.city → r₂.buildYear = none) ∧
    (∀ r' ∈ d', r'.floorCount = none → ∀ r₂ ∈ d, r₂.floorCount = none) ∧
    (∀ r' ∈ d', ∀ c : DCol, c.get r' = none →
      ∀ r₂ ∈ d, r₂.city = r'.city → c.get r₂ = none) := by
  rw [process_file_steps] at h
  cases h7 : stagesTo_distances d with
  | none => rw [h7] at h; exact Option.noConfusion h
  | some d7 =>
  rw [h7] at h
  have h' : (fill_missing_has_elevator d7).map
      (fun d8 => replace_ownership_value (replace_yes_no d8)) = some d' := h
  cases h8 : fill_missing_has_elevator d7 with
  | none => rw [h8] at h'; exact Option.noConfusion h'
  | some d8 =>
  rw [h8, Option.map_some'] at h'
  injection h' with hd'
  rw [stagesTo_distances] at h7
  cases h2 : fill_missing_building_material (fill_condition d) with
  | none => rw [h2] at h7; exact Option.noConfusion h7
  | some d2 =>
  rw [h2] at h7
  have h7a : (fill_missing_type d2).bind (fun d3 =>
      (fill_missing_floor (fill_missing_floor_count (fill_missing_build_year d3))).map
        (fun d6 => fill_missing_distances d6)) = some d7 := h7
  cases h3 : fill_missing_type d2 with
  | none => rw [h3] at h7a; exact Option.noConfusion h7a
  | some d3 =>
  rw [h3] at h7a
  have h7b : (fill_missing_floor (fill_missing_floor_count (fill_missing_build_year d3))).map
      (fun d6 => fill_missing_distances d6) = some d7 := h7a
  cases h6 : fill_missing_floor (fill_missing_floor_count (fill_missing_build_year d3)) with
  | none => rw [h6] at h7b; exact Option.noConfusion h7b
  | some d6 =>
  rw [h6, Option.map_some'] at h7b
  injection h7b with hd7
  cases hmodeB : seriesMode (matVals (fill_condition d)) with
  | none => rw [fill_missing_building_material, hmodeB] at h2; exact Option.noConfusion h2
  | some mB =>
  rw [fill_missing_building_material, hmodeB, Option.map_some'] at h2
  injection h2 with hD2
  cases hmodeT : seriesMode (typVals d2) with
  | none => rw [fill_missing_type, hmodeT] at h3; exact Option.noConfusion h3
  | some mT =>
  rw [fill_missing_type, hmodeT, Option.map_some'] at h3
  injection h3 with hD3
  have main : ∀ r' ∈ d',
      (r'.condition ≠ Val.null ∧ r'.buildingMaterial ≠ Val.null ∧
        r'.typ ≠ Val.null ∧ r'.floor ≠ none ∧ r'.hasElevator ≠ Val.null) ∧
      (r'.buildYear = none → ∀ r₂ ∈ d, r₂.city = r'.city → r₂.buildYear = none) ∧
      (r'.floorCount = none → ∀ r₂ ∈ d, r₂.floorCount = none) ∧
      (∀ c : DCol, c.get r' = none → ∀ r₂ ∈ d, r₂.city = r'.city → c.get r₂ = none) := by
    intro r' hr'
    have hr'' : r' ∈ (d8.map rynRow).map ownRow := by
      rw [← hd'] at hr'
      exact hr'
    obtain ⟨r9, hr9m, h9e⟩ := List.mem_map.1 hr''
    obtain ⟨r8, hr8m, h8e⟩ := List.mem_map.1 hr9m
    have hr'eq : r' = ownRow (rynRow r8) := by rw [← h9e, ← h8e]
    have h8o : omap heRow d7 = some d8 := by rw [← fill_missing_has_elevator]; exact h8
    obtain ⟨r7, hr7mem, h8f⟩ := omap_mem_back h8o r8 hr8m
    have hfold : dcolOrder.foldl distStep d6 = d7 := hd7
    have hr7m : r7 ∈ dcolOrder.foldl distStep d6 := by rw [hfold]; exact hr7mem
    obtain ⟨r6, hr6m, hsame, _⟩ := distFold_mem_back dcolOrder d6 r7 hr7m
    have h6o : omap (floorRow (fill_missing_floor_count (fill_missing_build_year d3)))
        (fill_missing_floor_count (fill_missing_build_year d3)) = some d6 := by
      rw [← fill_missing_floor]
      exact h6
    obtain ⟨r5, hr5m, h6f⟩ := omap_mem_back h6o r6 hr6m
    have hr5m' : r5 ∈ (fill_missing_build_year d3).map
        (fcRow (fill_missing_build_year d3)) := hr5m
    obtain ⟨r4, hr4m, he5⟩ := List.mem_map.1 hr5m'
    have hr5 : r5 = fcRow (fill_missing_build_year d3) r4 := he5.symm
    have hr4m' : r4 ∈ d3.map (byRow d3) := hr4m
    obtain ⟨r3, hr3m, he4⟩ := List.mem_map.1 hr4m'
    have hr4 : r4 = byRow d3 r3 := he4.symm
    have hr3m' : r3 ∈ d2.map (typRow mT) := by rw [hD3]; exact hr3m
    obtain ⟨r2, hr2m, he3⟩ := List.mem_map.1 hr3m'
    have hr3 : r3 = typRow mT r2 := he3.symm
    have hr2m' : r2 ∈ (fill_condition d).map (bmRow mB) := by rw [hD2]; exact hr2m
    obtain ⟨r1, hr1m, he2⟩ := List.mem_map.1 hr2m'
    have hr2 : r2 = bmRow mB r1 := he2.symm
    have hr1m' : r1 ∈ d.map (condImputeRow d) := by
      rw [← fill_condition_eq_map]
      exact hr1m
    obtain ⟨r0, hr0m, he1⟩ := List.mem_map.1 hr1m'
    have hr1 : r1 = condImputeRow d r0 := he1.symm
    obtain ⟨o_city, o_cond, o_bm, o_typ, o_by, o_fc, o_floor, o_he, o_dist⟩ :=
      ownRow_keeps (rynRow r8)
    obtain ⟨y_city, y_by, y_fc, y_floor, y_cond, y_bm, y_typ, y_he, y_dist⟩ := rynRow_keeps r8
    obtain ⟨h8_city, h8_cond, h8_bm, h8_typ, h8_by, h8_fc, h8_floor, h8_dist, h8_hene⟩ :=
      heRow_shape h8f
    obtain ⟨s_city, s_cond, s_bm, s_typ, s_by, s_fc, s_floor, s_he⟩ := hsame
    obtain ⟨f6_city, f6_cond, f6_bm, f6_typ, f6_by, f6_fc, f6_he, f6_dist, f6_fl⟩ :=
      floorRow_shape h6f
    obtain ⟨c5_city, c5_cond, c5_bm, c5_typ, c5_by, c5_floor, c5_he, c5_dist⟩ :=
      fcRow_keeps (fill_missing_build_year d3) r4
    obtain ⟨b4_city, b4_cond, b4_bm, b4_typ, b4_fc, b4_floor, b4_he, b4_dist⟩ :=
      byRow_keeps d3 r3
    obtain ⟨t3_city, t3_cond, t3_bm, t3_by, t3_fc, t3_floor, t3_he, t3_dist⟩ :=
      typRow_keeps mT r2
    obtain ⟨m2_city, m2_cond, m2_typ, m2_by, m2_fc, m2_floor, m2_he, m2_dist⟩ :=
      bmRow_keeps mB r1
    refine ⟨⟨?_, ?_, ?_, ?_, ?_⟩, ?_, ?_, ?_⟩
    · have hv : r'.condition = rynV r8.condition := by rw [hr'eq, o_cond, y_cond]
      have hc8 : r8.condition = (condImputeRow d r0).condition := by
        rw [h8_cond, s_cond, f6_cond, hr5, c5_cond, hr4, b4_cond, hr3, t3_cond, hr2,
          m2_cond, hr1]
      rw [hv]
      exact rynV_ne_null (hc8 ▸ condImputeRow_ne_null d r0)
    · have hv : r'.buildingMaterial = rynV r8.buildingMaterial := by rw [hr'eq, o_bm, y_bm]
      have hc8 : r8.buildingMaterial = (bmRow mB r1).buildingMaterial := by
        rw [h8_bm, s_bm, f6_bm, hr5, c5_bm, hr4, b4_bm, hr3, t3_bm, hr2]
      rw [hv]
      exact rynV_ne_null (hc8 ▸ bmRow_ne_null mB r1)
    · have hv : r'.typ = rynV r8.typ := by rw [hr'eq, o_typ, y_typ]
      have hc8 : r8.typ = (typRow mT r2).typ := by
        rw [h8_typ, s_typ, f6_typ, hr5, c5_typ, hr4, b4_typ, hr3]
      rw [hv]
      exact rynV_ne_null (hc8 ▸ typRow_ne_null mT r2)
    · have hv : r'.floor = r6.floor := by rw [hr'eq, o_floor, y_floor, h8_floor, s_floor]
      rw [hv]
      exact f6_fl
    · have hv : r'.hasElevator = rynV r8.hasElevator := by rw [hr'eq, o_he, y_he]
      rw [hv]
      exact rynV_ne_null h8_hene
    · intro hnone r₂ h₂m h₂city
      have hby : r'.buildYear = (byRow d3 r3).buildYear := by
        rw [hr'eq, o_by, y_by, h8_by, s_by, f6_by, hr5, c5_by, hr4]
      rw [hby] at hnone
      obtain ⟨_, hmed⟩ := byRow_null_back hnone
      have hempty : cityBuildYears d3 r3.city = [] := by
        by_contra hne
        have hs := ratMedian_isSome hne
        rw [hmed] at hs
        simp at hs
      have hcity : r'.city = r3.city := by
        rw [hr'eq, o_city, y_city, h8_city, s_city, f6_city, hr5, c5_city, hr4, b4_city]
      have hx1 : condImputeRow d r₂ ∈ fill_condition d := by
        rw [fill_condition_eq_map]
        exact List.mem_map.2 ⟨r₂, h₂m, rfl⟩
      have hx2 : bmRow mB (condImputeRow d r₂) ∈ d2 := by
        rw [← hD2]
        exact List.mem_map.2 ⟨_, hx1, rfl⟩
      have hx3 : typRow mT (bmRow mB (condImputeRow d r₂)) ∈ d3 := by
        rw [← hD3]
        exact List.mem_map.2 ⟨_, hx2, rfl⟩
      have hx3city : (typRow mT (bmRow mB (condImputeRow d r₂))).city = r₂.city := by
        rw [(typRow_keeps mT _).1, (bmRow_keeps mB _).1, (condImputeRow_keeps d r₂).1]
      have hx3by : (typRow mT (bmRow mB (condImputeRow d r₂))).buildYear = r₂.buildYear := by
        rw [(typRow_keeps mT _).2.2.2.1, (bmRow_keeps mB _).2.2.2.1,
          (condImputeRow_keeps d r₂).2.2.2.1]
      have hxc : decide ((typRow mT (bmRow mB (condImputeRow d r₂))).city = r3.city) = true :=
        decide_eq_true (by rw [hx3city, h₂city, hcity])
      have := filterMap_filter_nil hempty _ hx3 hxc
      rw [hx3by] at this
      exact this
    · intro hnone r₂ h₂m
      have hfc : r'.floorCount = (fcRow (fill_missing_build_year d3) r4).floorCount := by
        rw [hr'eq, o_fc, y_fc, h8_fc, s_fc, f6_fc, hr5]
      rw [hfc] at hnone
      obtain ⟨_, hmean⟩ := fcRow_null_back hnone
      have hempty : allFloorCounts (fill_missing_build_year d3) = [] :=
        ratMean_eq_none_iff.1 hmean
      have hall : ∀ x ∈ fill_missing_build_year d3, x.floorCount = none := by
        intro x hx
        exact List.filterMap_eq_nil_iff.1 hempty x hx
      have hx1 : condImputeRow d r₂ ∈ fill_condition d := by
        rw [fill_condition_eq_map]
        exact List.mem_map.2 ⟨r₂, h₂m, rfl⟩
      have hx2 : bmRow mB (condImputeRow d r₂) ∈ d2 := by
        rw [← hD2]
        exact List.mem_map.2 ⟨_, hx1, rfl⟩
      have hx3 : typRow mT (bmRow mB (condImputeRow d r₂)) ∈ d3 := by
        rw [← hD3]
        exact List.mem_map.2 ⟨_, hx2, rfl⟩
      have hx4 : byRow d3 (typRow mT (bmRow mB (condImputeRow d r₂))) ∈
          fill_missing_build_year d3 := by
        rw [fill_missing_build_year]
        exact List.mem_map.2 ⟨_, hx3, rfl⟩
      have hx4fc : (byRow d3 (typRow mT (bmRow mB (condImputeRow d r₂)))).floorCount =
          r₂.floorCount := by
        rw [(byRow_keeps d3 _).2.2.2.2.1, (typRow_keeps mT _).2.2.2.2.1,
          (bmRow_keeps mB _).2.2.2.2.1, (condImputeRow_keeps d r₂).2.2.2.2.1]
      have := hall _ hx4
      rw [hx4fc] at this
      exact this
    · intro c hcnone r₂ h₂m h₂city
      have hdist : c.get r' = c.get r7 := by rw [hr'eq, o_dist c, y_dist c, h8_dist c]
      have h7none : c.get r7 = none := by rw [← hdist]; exact hcnone
      have hcity7 : r'.city = r7.city := by rw [hr'eq, o_city, y_city, h8_city]
      have hback := distFold_null_back dcolOrder (by decide) c (by cases c <;> decide)
        d6 r7 hr7m h7none
      have hx1 : condImputeRow d r₂ ∈ fill_condition d := by
        rw [fill_condition_eq_map]
        exact List.mem_map.2 ⟨r₂, h₂m, rfl⟩
      have hx2 : bmRow mB (condImputeRow d r₂) ∈ d2 := by
        rw [← hD2]
        exact List.mem_map.2 ⟨_, hx1, rfl⟩
      have hx3 : typRow mT (bmRow mB (condImputeRow d r₂)) ∈ d3 := by
        rw [← hD3]
        exact List.mem_map.2 ⟨_, hx2, rfl⟩
      have hx4 : byRow d3 (typRow mT (bmRow mB (condImputeRow d r₂))) ∈
          fill_missing_build_year d3 := by
        rw [fill_missing_build_year]
        exact List.mem_map.2 ⟨_, hx3, rfl⟩
      have hx5 : fcRow (fill_missing_build_year d3)
          (byRow d3 (typRow mT (bmRow mB (condImputeRow d r₂)))) ∈
          fill_missing_floor_count (fill_missing_build_year d3) := by
        rw [fill_missing_floor_count]
        exact List.mem_map.2 ⟨_, hx4, rfl⟩
      obtain ⟨x6, hx6m, hx6f⟩ := omap_mem_fwd h6o _ hx5
      obtain ⟨g_city, _, _, _, _, _, _, g_dist, _⟩ := floorRow_shape hx6f
      have hx5city : (fcRow (fill_missing_build_year d3)
          (byRow d3 (typRow mT (bmRow mB (condImputeRow d r₂))))).city = r₂.city := by
        rw [(fcRow_keeps _ _).1, (byRow_keeps d3 _).1, (typRow_keeps mT _).1,
          (bmRow_keeps mB _).1, (condImputeRow_keeps d r₂).1]
      have hx6city : x6.city = r7.city := by
        rw [g_city, hx5city, h₂city, hcity7]
      have hx6none : c.get x6 = none := hback x6 hx6m hx6city
      have hx5none : c.get (fcRow (fill_missing_build_year d3)
          (byRow d3 (typRow mT (bmRow mB (condImputeRow d r₂))))) = none := by
        rw [← g_dist c]
        exact hx6none
      rw [(fcRow_keeps _ _).2.2.2.2.2.2.2 c, (byRow_keeps d3 _).2.2.2.2.2.2.2 c,
        (typRow_keeps mT _).2.2.2.2.2.2.2 c, (bmRow_keeps mB _).2.2.2.2.2.2.2 c,
        (condImputeRow_keeps d r₂).2.2.2.2.2.2.2 c] at hx5none
      exact hx5none
  exact ⟨fun r' hh => (main r' hh).1, fun r' hh => (main r' hh).2.1,
    fun r' hh => (main r' hh).2.2.1, fun r' hh => (main r' hh).2.2.2⟩

/-- Witness for the amended C1 on a concrete one-row dataset. -/
theorem claim1_witness :
    rClean.condition ≠ Val.null ∧ rClean.buildingMaterial ≠ Val.null ∧
    rClean.typ ≠ Val.null ∧ rClean.floor ≠ none ∧ rClean.hasElevator ≠ Val.null :=
  (claim1_amended_completeness dW1 dW1res (by decide)).1 rClean (by decide)
